import Mathlib

/-!
Comment section of the video page: model and properties.

A shallow embedding of `src/src/components/CommentSection.js`: the comment
gateway `commentAPI`, the component state held by `useState`, the handlers
that update it, and the derived view `sortComments`; of the interceptors of
the axios instance in `src/src/services/api.js`; of the like and dislike
handlers and the related videos of `src/src/pages/VideoPage.js` (the handlers
are the same in `src/src/components/VideoPlayer.js`); of the reducer and the
load effect of `src/src/context/AuthContext.js`; and of the tag handlers and
the validation of `src/src/components/ChannelForm.js`.

Conventions of the embedding.

* A JavaScript number that may be `NaN` is an `Option Int` (`none` is `NaN`).
* A value that may be `null`/`undefined` is an `Option` (`none` is nullish).
* An `async` handler is split at its `await`: a `...Start` function for the
  part that runs on the trigger and a `...Resolve` function for the
  continuation, which receives the outcome of the awaited call.
* `window.alert` is recorded in the `alerts` log of the state.
-/

namespace CommentSection

/-! ## Data model -/

/-- The value of a date-bearing field (`createdAt`, `timestamp`) of a comment,
up to what `||` and `new Date(..)` observe of it. -/
inductive DateField where
  /-- Value `undefined`, the empty string or `NaN`: falsy, and `new Date` of it is invalid. -/
  | missing
  /-- Value `null`, `0` or `false`: falsy, and `new Date` of it has time value 0. -/
  | zero
  /-- A truthy value (date string, non-zero number) whose date has time value `ms`. -/
  | at (ms : Int)
  /-- A truthy value whose date is invalid (for example an unparsable string). -/
  | unparsable
  deriving DecidableEq, Repr

/-- Truthiness of a date field, as tested by `||`. -/
def DateField.truthy : DateField → Bool
  | .missing => false
  | .zero => false
  | .at _ => true
  | .unparsable => true

/-- Time value of `new Date(v)`; `none` is `NaN` (an invalid date). -/
def DateField.time : DateField → Option Int
  | .missing => none
  | .zero => some 0
  | .at ms => some ms
  | .unparsable => none

/-- The `author` field of a comment: absent, a string (a user id or a name),
or an inline object of which the component reads `_id` and `id`. -/
inductive Author where
  | absent
  | text (value : String)
  | object (_id id : Option String)
  deriving DecidableEq, Repr

/-- A comment record as the component reads it. Numeric fields are JavaScript
numbers restricted to integers; `none` stands for an absent field. -/
structure Comment where
  _id : String := ""
  text : String := ""
  isEdited : Bool := false
  createdAt : DateField := .missing
  timestamp : DateField := .missing
  likeCount : Option Int := none
  likes : Option Int := none
  isLiked : Option Bool := none
  author : Author := .absent
  userId : Option String := none
  deriving DecidableEq, Repr

/-! ## JavaScript primitives used by the component -/

/-- The operator `a || b` on date fields. -/
def DateField.or (a b : DateField) : DateField :=
  if a.truthy then a else b

/-- Subtraction of two numbers, `NaN` when either operand is `NaN`. -/
def jsSub : Option Int → Option Int → Option Int
  | some x, some y => some (x - y)
  | _, _ => none

/-- Truthiness of a numeric field: absent and `0` are falsy. -/
def numTruthy : Option Int → Bool
  | some n => n != 0
  | none => false

/-- The value of `new Date(c.createdAt || c.timestamp)` as a number. -/
def dateOf (c : Comment) : Option Int :=
  (c.createdAt.or c.timestamp).time

/-- The value of `(c.likeCount || c.likes || 0)`. -/
def likesOf (c : Comment) : Int :=
  if numTruthy c.likeCount then c.likeCount.getD 0
  else if numTruthy c.likes then c.likes.getD 0
  else 0

/-- The number a comparator result is read as by `Array.prototype.sort`:
`NaN` counts as `+0`. -/
def sortCompare {α : Type} (comparefn : α → α → Option Int) (x y : α) : Int :=
  (comparefn x y).getD 0

/-- The order `Array.prototype.sort` sorts by: `x` may stay before `y` when
the comparator does not yield a positive number. -/
def sortLE {α : Type} (comparefn : α → α → Option Int) (x y : α) : Prop :=
  sortCompare comparefn x y ≤ 0

instance sortLE_decidable {α : Type} (comparefn : α → α → Option Int) :
    DecidableRel (sortLE comparefn) :=
  fun x y => inferInstanceAs (Decidable (sortCompare comparefn x y ≤ 0))

/-- The result of `Array.prototype.sort(comparefn)` on an array with the given
elements: a stable sort (ECMAScript 2019), realised here by insertion. -/
def arraySort {α : Type} (comparefn : α → α → Option Int) (xs : List α) : List α :=
  List.insertionSort (sortLE comparefn) xs

/-- Characters removed by `String.prototype.trim`: ECMAScript white space and
line terminators. -/
def isJsWhitespace (c : Char) : Bool :=
  let n := c.toNat
  n = 0x9 || n = 0xA || n = 0xB || n = 0xC || n = 0xD || n = 0x20 || n = 0xA0 ||
  n = 0x1680 || (0x2000 ≤ n && n ≤ 0x200A) || n = 0x2028 || n = 0x2029 ||
  n = 0x202F || n = 0x205F || n = 0x3000 || n = 0xFEFF

/-- The method `String.prototype.trim`. -/
def jsTrim (s : String) : String :=
  String.mk ((s.toList.dropWhile isJsWhitespace).reverse.dropWhile isJsWhitespace).reverse

/-- The operator `a || b` on strings: the empty string is falsy. -/
def strOr (a b : String) : String :=
  if a = "" then b else a

/-! ## `sortComments` -/

/-- The comparator passed to `sort` in `sortComments`: the `switch (sortBy)`. -/
def compareComments (sortBy : String) (a b : Comment) : Option Int :=
  if sortBy = "oldest" then jsSub (dateOf a) (dateOf b)
  else if sortBy = "popular" then some (likesOf b - likesOf a)
  else jsSub (dateOf b) (dateOf a)

/-- The function `sortComments`, with `sortBy` read from the component state.
The argument is `none` when the value passed is not an array. -/
def sortComments (sortBy : String) (comments : Option (List Comment)) : List Comment :=
  match comments with
  | none => []
  | some cs => arraySort (compareComments sortBy) cs

/-! ### `sortComments` on a store of arrays

The same function with the array objects made explicit, so that what happens
to the argument can be stated: `[...comments]` allocates a fresh array and
`sort` works in place on that copy. -/

/-- A store of array objects; a reference is an index into it. -/
abbrev ArrayStore := List (List Comment)

/-- Contents of the array at reference `r` (`none` when `r` is not an array). -/
def ArrayStore.read (σ : ArrayStore) (r : Nat) : Option (List Comment) :=
  σ[r]?

/-- The spread copy `[...xs]`: a new array object with the same elements. -/
def ArrayStore.spread (σ : ArrayStore) (xs : List Comment) : ArrayStore × Nat :=
  (σ ++ [xs], σ.length)

/-- In-place `sort(comparefn)` of the array at reference `r`. -/
def ArrayStore.sortInPlace (σ : ArrayStore) (comparefn : Comment → Comment → Option Int)
    (r : Nat) : ArrayStore :=
  match σ[r]? with
  | none => σ
  | some xs => σ.set r (arraySort comparefn xs)

/-- The function `sortComments` over the store: returns the store after the
call and the reference of the returned array. -/
def sortCommentsInStore (sortBy : String) (σ : ArrayStore) (comments : Nat) : ArrayStore × Nat :=
  match σ.read comments with
  | none => ArrayStore.spread σ []
  | some cs =>
    let (σ₁, copy) := ArrayStore.spread σ cs
    (ArrayStore.sortInPlace σ₁ (compareComments sortBy) copy, copy)

/-! ## The gateway `commentAPI`

Each function of `commentAPI` is a function of the outcome of its `fetch`. -/

/-- A response body, up to what the gateway reads of it. A JSON value that is
not an object reads as an object without `success`, `data` and `message`. -/
inductive Body (δ : Type) where
  /-- The text is not JSON. -/
  | invalid (text : String)
  /-- The text is the JSON value `null`. -/
  | null
  /-- A JSON object: truthiness of `success`, the value of `data` (`none` when
  nullish) and the value of `message` (empty when falsy). -/
  | object (success : Bool) (data : Option δ) (message : String)

/-- The outcome of a `fetch` call. -/
inductive FetchResult (δ : Type) where
  /-- The promise rejects (transport failure). -/
  | rejected (message : String)
  /-- A response arrived, with `response.ok`, `response.status` and its body. -/
  | response (ok : Bool) (status : Nat) (body : Body δ)

/-- What `likeComment` reads of the `data` of a like response. -/
structure LikeResult where
  likeCount : Option Int := none
  isLiked : Option Bool := none
  deriving DecidableEq, Repr

/-- The `try` block of `getVideoComments`; `error` is a thrown exception. -/
def getVideoCommentsTry (r : FetchResult (List Comment)) : Except String (Option (List Comment)) :=
  match r with
  | .rejected m => .error m
  | .response ok _ body =>
    if !ok then .error "Failed to fetch comments"
    else
      match body with
      | .invalid _ => .error "SyntaxError"
      | .null => .error "TypeError"
      | .object success data _ => .ok (if success then data else some [])

/-- The function `commentAPI.getVideoComments`: the `try` block, with every
exception caught and turned into `[]`. -/
def getVideoComments (r : FetchResult (List Comment)) : Option (List Comment) :=
  match getVideoCommentsTry r with
  | .ok v => v
  | .error _ => some []

/-- The function `commentAPI.addComment`; `error` is the rethrown exception.
The body is read as text and parsed with `JSON.parse`. -/
def addComment (r : FetchResult Comment) : Except String (Option Comment) :=
  match r with
  | .rejected m => .error m
  | .response ok status body =>
    if !ok then
      match body with
      | .invalid text => .error (strOr text ("HTTP " ++ toString status ++ ": Failed to add comment"))
      | .null => .error "TypeError"
      | .object _ _ message =>
        .error (strOr message ("HTTP " ++ toString status ++ ": Failed to add comment"))
    else
      match body with
      | .invalid _ => .error "SyntaxError"
      | .null => .error "TypeError"
      | .object success data _ => .ok (if success then data else none)

/-- The function `commentAPI.updateComment`. -/
def updateComment (r : FetchResult Comment) : Except String (Option Comment) :=
  match r with
  | .rejected m => .error m
  | .response ok _ body =>
    match body with
    | .invalid _ => .error "SyntaxError"
    | .null => .error "TypeError"
    | .object success data message =>
      if !ok then .error (strOr message "Failed to update comment")
      else .ok (if success then data else none)

/-- The function `commentAPI.deleteComment`; the body is read only when the
response is not OK. -/
def deleteComment (r : FetchResult Unit) : Except String Bool :=
  match r with
  | .rejected m => .error m
  | .response ok _ body =>
    if !ok then
      match body with
      | .invalid _ => .error "SyntaxError"
      | .null => .error "TypeError"
      | .object _ _ message => .error (strOr message "Failed to delete comment")
    else .ok true

/-- The function `commentAPI.likeComment`. -/
def likeComment (r : FetchResult LikeResult) : Except String (Option LikeResult) :=
  match r with
  | .rejected m => .error m
  | .response ok _ body =>
    match body with
    | .invalid _ => .error "SyntaxError"
    | .null => .error "TypeError"
    | .object success data message =>
      if !ok then .error (strOr message "Failed to like comment")
      else .ok (if success then data else none)

/-! ## Component state and handlers -/

/-- The `video` prop, up to its two id fields (empty when absent). -/
structure Video where
  videoId : String := ""
  _id : String := ""
  deriving DecidableEq, Repr

/-- The `user` record of `useAuth`, up to the three id fields the component
reads (`none` when a field is absent). -/
structure Viewer where
  id : Option String := none
  userId : Option String := none
  _id : Option String := none
  deriving DecidableEq, Repr

/-- What the component receives from outside: the `video` prop (`none` when
nullish), and the `isAuthenticated` flag and the `user` record of `useAuth`. -/
structure Env where
  video : Option Video := none
  isAuthenticated : Bool := false
  user : Option Viewer := none
  deriving DecidableEq, Repr

/-- The `useState` cells of the component, and the log of `alert` calls. -/
structure State where
  comments : List Comment := []
  newComment : String := ""
  editingComment : Option String := none
  editText : String := ""
  showMenu : Option String := none
  sortBy : String := "newest"
  showSortMenu : Bool := false
  loading : Bool := false
  submitting : Bool := false
  alerts : List String := []
  deriving DecidableEq, Repr

/-- The guard `!video?.videoId && !video?._id` of the load and of the poll tick. -/
def noVideoId (env : Env) : Bool :=
  match env.video with
  | none => true
  | some v => v.videoId = "" && v._id = ""

/-- The expression `video.videoId || video._id`. -/
def videoIdOf (v : Video) : String :=
  strOr v.videoId v._id

/-- The expression `fetchedComments || []`. -/
def orEmpty (fetched : Option (List Comment)) : List Comment :=
  fetched.getD []

/-- The expression `fetchedComments?.length || 0`. -/
def lengthOrZero (fetched : Option (List Comment)) : Nat :=
  match fetched with
  | none => 0
  | some cs => cs.length

/-- The derived value `sortedComments = sortComments(comments)` of a render. -/
def sortedComments (s : State) : List Comment :=
  sortComments s.sortBy (some s.comments)

/-- Function `loadComments` up to its `await`: the state after it and the
video id requested, if a request is issued. -/
def loadCommentsStart (env : Env) (s : State) : State × Option String :=
  match env.video with
  | none => (s, none)
  | some v =>
    if noVideoId env then (s, none)
    else ({ s with loading := true }, some (videoIdOf v))

/-- Function `loadComments` from its `await` on, given the outcome of the fetch. -/
def loadCommentsResolve (r : FetchResult (List Comment)) (s : State) : State :=
  { s with comments := orEmpty (getVideoComments r), loading := false }

/-- The interval callback up to its `await`: the video id requested, if any. -/
def pollTickStart (env : Env) (s : State) : State × Option String :=
  match env.video with
  | none => (s, none)
  | some v => if noVideoId env then (s, none) else (s, some (videoIdOf v))

/-- The interval callback from its `await` on. -/
def pollTickResolve (r : FetchResult (List Comment)) (s : State) : State :=
  { s with comments := orEmpty (getVideoComments r) }

/-- Function `forceReloadComments` up to its `await`; reading `video.videoId`
of a nullish `video` throws inside the `try`. -/
def forceReloadCommentsStart (env : Env) (s : State) : State × Option String :=
  match env.video with
  | none => ({ s with alerts := s.alerts ++ ["Failed to refresh comments"] }, none)
  | some v => (s, some (videoIdOf v))

/-- Function `forceReloadComments` from its `await` on. -/
def forceReloadCommentsResolve (r : FetchResult (List Comment)) (s : State) : State :=
  { s with
    comments := orEmpty (getVideoComments r)
    alerts := s.alerts ++
      ["✅ Refreshed! Found " ++ toString (lengthOrZero (getVideoComments r)) ++ " comments"] }

/-- The arguments of a call of `commentAPI.addComment`. -/
structure CreateRequest where
  videoId : String
  text : String
  deriving DecidableEq, Repr

/-- Function `handleSubmitComment` up to its `await`: the state after it and
the create request issued, if any. -/
def handleSubmitCommentStart (env : Env) (s : State) : State × Option CreateRequest :=
  if jsTrim s.newComment = "" || !env.isAuthenticated || s.submitting then (s, none)
  else
    match env.video with
    | none =>
      ({ s with
          alerts := s.alerts ++ ["Failed to add comment. Please try again."]
          submitting := false }, none)
    | some v =>
      ({ s with submitting := true },
        some { videoId := videoIdOf v, text := jsTrim s.newComment })

/-- Function `handleSubmitComment` from its `await` on, given what `addComment`
returned or threw. -/
def handleSubmitCommentResolve (added : Except String (Option Comment)) (s : State) : State :=
  match added with
  | .ok (some addedComment) =>
    { s with comments := addedComment :: s.comments, newComment := "", submitting := false }
  | .ok none => { s with submitting := false }
  | .error _ =>
    { s with
      alerts := s.alerts ++ ["Failed to add comment. Please try again."]
      submitting := false }

/-- Function `handleEditComment` up to its `await`: the comment id and the text
sent to `updateComment`, if a request is issued. -/
def handleEditCommentStart (commentId : String) (s : State) : State × Option (String × String) :=
  if jsTrim s.editText = "" then (s, none)
  else (s, some (commentId, jsTrim s.editText))

/-- Function `handleEditComment` from its `await` on; `editText` is the value
the handler closed over when it was triggered. -/
def handleEditCommentResolve (commentId editText : String)
    (updated : Except String (Option Comment)) (s : State) : State :=
  match updated with
  | .ok (some _) =>
    { s with
      comments := s.comments.map fun comment =>
        if comment._id = commentId then { comment with text := jsTrim editText, isEdited := true }
        else comment
      editingComment := none
      editText := ""
      alerts := s.alerts ++ ["✅ Comment updated successfully!"] }
  | .ok none => s
  | .error message => { s with alerts := s.alerts ++ ["Failed to edit comment: " ++ message] }

/-- Function `handleDeleteComment` up to its `await`; `confirmed` is the answer
of `window.confirm`. -/
def handleDeleteCommentStart (confirmed : Bool) (commentId : String) (s : State) :
    State × Option String :=
  if !confirmed then (s, none) else (s, some commentId)

/-- Function `handleDeleteComment` from its `await` on. -/
def handleDeleteCommentResolve (commentId : String) (deleted : Except String Bool)
    (s : State) : State :=
  match deleted with
  | .ok _ =>
    { s with
      comments := s.comments.filter fun comment => comment._id != commentId
      showMenu := none
      alerts := s.alerts ++ ["🗑️ Comment deleted successfully!"] }
  | .error message => { s with alerts := s.alerts ++ ["Failed to delete comment: " ++ message] }

/-- Function `handleLikeComment` up to its `await`. -/
def handleLikeCommentStart (env : Env) (commentId : String) (s : State) :
    State × Option String :=
  if !env.isAuthenticated then (s, none) else (s, some commentId)

/-- Function `handleLikeComment` from its `await` on. -/
def handleLikeCommentResolve (commentId : String) (result : Except String (Option LikeResult))
    (s : State) : State :=
  match result with
  | .ok (some result) =>
    { s with
      comments := s.comments.map fun comment =>
        if comment._id = commentId then
          { comment with likeCount := result.likeCount, isLiked := result.isLiked }
        else comment }
  | .ok none => s
  | .error _ => s

/-- Function `handleSubmitComment` run to completion with no other update in
between: the trigger, then the continuation when a request was issued. -/
def handleSubmitComment (env : Env) (r : FetchResult Comment) (s : State) : State :=
  match handleSubmitCommentStart env s with
  | (s₁, none) => s₁
  | (s₁, some _) => handleSubmitCommentResolve (addComment r) s₁

/-! ## Steps of the component

The state changes only through the handler parts above. An event names one of
them together with the values it receives from outside. -/

/-- One atomic update of the component state. -/
inductive Event where
  | loadStarted (env : Env)
  | loadResolved (r : FetchResult (List Comment))
  | pollResolved (r : FetchResult (List Comment))
  | reloadStarted (env : Env)
  | reloadResolved (r : FetchResult (List Comment))
  | submitStarted (env : Env)
  | submitResolved (r : FetchResult Comment)
  | editResolved (commentId editText : String) (r : FetchResult Comment)
  | deleteResolved (commentId : String) (r : FetchResult Unit)
  | likeResolved (commentId : String) (r : FetchResult LikeResult)

/-- The state after an event. -/
def Event.apply (e : Event) (s : State) : State :=
  match e with
  | .loadStarted env => (loadCommentsStart env s).1
  | .loadResolved r => loadCommentsResolve r s
  | .pollResolved r => pollTickResolve r s
  | .reloadStarted env => (forceReloadCommentsStart env s).1
  | .reloadResolved r => forceReloadCommentsResolve r s
  | .submitStarted env => (handleSubmitCommentStart env s).1
  | .submitResolved r => handleSubmitCommentResolve (addComment r) s
  | .editResolved commentId editText r =>
    handleEditCommentResolve commentId editText (updateComment r) s
  | .deleteResolved commentId r => handleDeleteCommentResolve commentId (deleteComment r) s
  | .likeResolved commentId r => handleLikeCommentResolve commentId (likeComment r) s

/-- The ids of the cached comments, in storage order. -/
def cacheIds (s : State) : List String :=
  s.comments.map fun c => c._id

/-- The component together with the part of the server that bears on the ids
in the cache: the ids the server has given to comments so far, and the
comments it has created whose confirmation has not been applied to the cache
yet. -/
structure World where
  ui : State := {}
  issued : List String := []
  confirming : List Comment := []
  deriving DecidableEq, Repr

/-- What the server is taken to do when it answers. A comment list it returns
has pairwise distinct ids, all of them given out by the server; a confirmed
comment is one the server created and has not confirmed before. With
`inOrder` set, a list moreover carries no comment whose confirmation is still
on its way. -/
def Event.serverOk (inOrder : Bool) (w : World) : Event → Prop
  | .loadResolved r | .pollResolved r | .reloadResolved r =>
    ∀ cs, getVideoComments r = some cs →
      (cs.map fun c => c._id).Nodup ∧ (∀ c ∈ cs, c._id ∈ w.issued) ∧
      (inOrder = true → ∀ c ∈ cs, c._id ∉ w.confirming.map fun d => d._id)
  | .submitResolved r => ∀ c, addComment r = .ok (some c) → c ∈ w.confirming
  | _ => True

/-- The world after an event of the component: the state after it, and a
comment that was confirmed is no longer on its way. -/
def World.after (e : Event) (w : World) : World :=
  { w with
    ui := e.apply w.ui
    confirming :=
      match e with
      | .submitResolved r =>
        match addComment r with
        | .ok (some c) => w.confirming.erase c
        | _ => w.confirming
      | _ => w.confirming }

/-- The worlds reached from an empty cache: the server creates a comment
under an id it has not given out before, or an event of the component takes
place, in any order. -/
inductive World.Reachable (inOrder : Bool) : World → Prop where
  | init (issued : List String) : World.Reachable inOrder { issued := issued }
  | create {w : World} (c : Comment) :
      World.Reachable inOrder w → c._id ∉ w.issued →
      World.Reachable inOrder
        { w with issued := c._id :: w.issued, confirming := c :: w.confirming }
  | step {w : World} (e : Event) :
      World.Reachable inOrder w → e.serverOk inOrder w →
      World.Reachable inOrder (w.after e)

/-- What holds of every world in which no list overtakes a confirmation: the
ids in the cache are pairwise distinct and given out by the server, and so
are the ids of the comments being confirmed, none of which is in the cache. -/
def World.Consistent (w : World) : Prop :=
  (cacheIds w.ui).Nodup ∧ (∀ i ∈ cacheIds w.ui, i ∈ w.issued) ∧
  (w.confirming.map fun d => d._id).Nodup ∧ (∀ d ∈ w.confirming, d._id ∈ w.issued) ∧
  ∀ d ∈ w.confirming, d._id ∉ cacheIds w.ui

/-- Function `handleEditComment` run to completion with no other update in
between. -/
def handleEditComment (commentId : String) (r : FetchResult Comment) (s : State) : State :=
  match handleEditCommentStart commentId s with
  | (s₁, none) => s₁
  | (s₁, some _) => handleEditCommentResolve commentId s.editText (updateComment r) s₁

/-- Function `handleDeleteComment` run to completion with no other update in
between. -/
def handleDeleteComment (confirmed : Bool) (commentId : String) (r : FetchResult Unit)
    (s : State) : State :=
  match handleDeleteCommentStart confirmed commentId s with
  | (s₁, none) => s₁
  | (s₁, some _) => handleDeleteCommentResolve commentId (deleteComment r) s₁

/-- Function `handleLikeComment` run to completion with no other update in
between. -/
def handleLikeComment (env : Env) (commentId : String) (r : FetchResult LikeResult)
    (s : State) : State :=
  match handleLikeCommentStart env commentId s with
  | (s₁, none) => s₁
  | (s₁, some _) => handleLikeCommentResolve commentId (likeComment r) s₁

/-! ## The mounted component with its requests in flight

The component together with what lives outside its `useState` cells: the
props of the current render, the interval set by the second effect, and the
requests that have been issued and have not resolved yet. -/

/-- A request that has been issued and whose continuation is waiting; it
holds what the continuation closed over. -/
inductive Pending where
  /-- The fetch of `loadComments`. -/
  | load (videoId : String)
  /-- The fetch of an interval tick. -/
  | poll (videoId : String)
  /-- The fetch of `forceReloadComments`. -/
  | reload (videoId : String)
  /-- The call of `addComment` by `handleSubmitComment`. -/
  | create (req : CreateRequest)
  /-- The call of `updateComment` by `handleEditComment`: the id, the text sent
  and the `editText` of the render the handler belongs to. -/
  | update (commentId text editText : String)
  /-- The call of `deleteComment` by `handleDeleteComment`. -/
  | delete (commentId : String)
  /-- The call of `likeComment` by `handleLikeComment`. -/
  | like (commentId : String)
  deriving DecidableEq, Repr

/-- The outcome of a fetch, by the kind of data its body carries. -/
inductive Response where
  | comments (r : FetchResult (List Comment))
  | comment (r : FetchResult Comment)
  | empty (r : FetchResult Unit)
  | like (r : FetchResult LikeResult)

/-- The continuation of a request in flight for an outcome of the matching
kind. -/
def Pending.resume : Pending → Response → Option (State → State)
  | .load _, .comments r => some (loadCommentsResolve r)
  | .poll _, .comments r => some (pollTickResolve r)
  | .reload _, .comments r => some (forceReloadCommentsResolve r)
  | .create _, .comment r => some (handleSubmitCommentResolve (addComment r))
  | .update commentId _ editText, .comment r =>
    some (handleEditCommentResolve commentId editText (updateComment r))
  | .delete commentId, .empty r => some (handleDeleteCommentResolve commentId (deleteComment r))
  | .like commentId, .like r => some (handleLikeCommentResolve commentId (likeComment r))
  | _, _ => none

/-- The component instance: current props, `useState` cells, whether it is
mounted, the active intervals (each with the props its callback closed over)
and the requests in flight, oldest first. -/
structure Sys where
  env : Env := {}
  ui : State := {}
  mounted : Bool := true
  timers : List Env := []
  inFlight : List Pending := []
  deriving DecidableEq, Repr

/-- The dependency array `[video?.videoId, video?._id]` of both effects. -/
def effectDeps (env : Env) : String × String :=
  match env.video with
  | none => ("", "")
  | some v => (v.videoId, v._id)

/-- First render: the state cells take their initial values, the first effect
calls `loadComments` and the second sets the interval. -/
def Sys.mount (env : Env) : Sys :=
  { env := env
    ui := (loadCommentsStart env {}).1
    mounted := true
    timers := [env]
    inFlight := ((loadCommentsStart env {}).2.map Pending.load).toList }

/-- A render with new props. When the dependencies changed, the cleanup of the
second effect clears its interval and both effects run again with the new
props; requests in flight are not touched. -/
def Sys.setProps (env : Env) (sys : Sys) : Sys :=
  if !sys.mounted then sys
  else if effectDeps env = effectDeps sys.env then { sys with env := env }
  else
    { sys with
      env := env
      ui := (loadCommentsStart env sys.ui).1
      timers := [env]
      inFlight := sys.inFlight ++ ((loadCommentsStart env sys.ui).2.map Pending.load).toList }

/-- Unmount: the cleanup of the second effect clears its interval. -/
def Sys.unmount (sys : Sys) : Sys :=
  { sys with mounted := false, timers := [] }

/-- The `k`-th active interval fires: its callback runs up to its `await`. -/
def Sys.tick (k : Nat) (sys : Sys) : Sys :=
  match sys.timers[k]? with
  | none => sys
  | some tenv =>
    { sys with
      ui := (pollTickStart tenv sys.ui).1
      inFlight := sys.inFlight ++ ((pollTickStart tenv sys.ui).2.map Pending.poll).toList }

/-- The viewer clicks the submit button. -/
def Sys.submit (sys : Sys) : Sys :=
  if !sys.mounted then sys
  else
    { sys with
      ui := (handleSubmitCommentStart sys.env sys.ui).1
      inFlight := sys.inFlight ++
        ((handleSubmitCommentStart sys.env sys.ui).2.map Pending.create).toList }

/-- The viewer saves the edit of comment `commentId`. -/
def Sys.edit (commentId : String) (sys : Sys) : Sys :=
  if !sys.mounted then sys
  else
    { sys with
      ui := (handleEditCommentStart commentId sys.ui).1
      inFlight := sys.inFlight ++
        ((handleEditCommentStart commentId sys.ui).2.map fun p =>
          Pending.update p.1 p.2 sys.ui.editText).toList }

/-- The viewer chooses to delete comment `commentId` and answers the dialog. -/
def Sys.delete (confirmed : Bool) (commentId : String) (sys : Sys) : Sys :=
  if !sys.mounted then sys
  else
    { sys with
      ui := (handleDeleteCommentStart confirmed commentId sys.ui).1
      inFlight := sys.inFlight ++
        ((handleDeleteCommentStart confirmed commentId sys.ui).2.map Pending.delete).toList }

/-- The viewer clicks the like button of comment `commentId`. -/
def Sys.like (commentId : String) (sys : Sys) : Sys :=
  if !sys.mounted then sys
  else
    { sys with
      ui := (handleLikeCommentStart sys.env commentId sys.ui).1
      inFlight := sys.inFlight ++
        ((handleLikeCommentStart sys.env commentId sys.ui).2.map Pending.like).toList }

/-- The viewer clicks the refresh button. -/
def Sys.reload (sys : Sys) : Sys :=
  if !sys.mounted then sys
  else
    { sys with
      ui := (forceReloadCommentsStart sys.env sys.ui).1
      inFlight := sys.inFlight ++
        ((forceReloadCommentsStart sys.env sys.ui).2.map Pending.reload).toList }

/-- The `k`-th request in flight resolves with an outcome of its kind: its
continuation runs. On an unmounted component the state updates of the
continuation are dropped by React; its `alert` calls still happen. -/
def Sys.resolve (k : Nat) (resp : Response) (sys : Sys) : Sys :=
  match sys.inFlight[k]? with
  | none => sys
  | some p =>
    match p.resume resp with
    | none => sys
    | some continuation =>
      { sys with
        inFlight := sys.inFlight.eraseIdx k
        ui := if sys.mounted then continuation sys.ui
          else { sys.ui with alerts := (continuation sys.ui).alerts } }

/-- Whether a request in flight is a fetch of the interval callback. -/
def Pending.isPoll : Pending → Bool
  | .poll _ => true
  | _ => false

/-- The number of interval fetches in flight. -/
def Sys.pollsInFlight (sys : Sys) : Nat :=
  sys.inFlight.countP Pending.isPoll

end CommentSection

/-! ## Browser storage and HTTP requests -/

namespace Browser

/-- The entries of `localStorage`, as key and value pairs; the entry read for a
key is the first one that carries it. -/
abbrev Storage := List (String × String)

/-- The method `localStorage.getItem`: `none` is `null`. -/
def Storage.getItem (storage : Storage) (key : String) : Option String :=
  storage.lookup key

/-- The method `localStorage.removeItem`. -/
def Storage.removeItem (storage : Storage) (key : String) : Storage :=
  storage.filter fun entry => entry.1 != key

/-- A value inside a template literal: `null` prints as the text `null`. -/
def templateText (value : Option String) : String :=
  value.getD "null"

/-- An HTTP request, up to its method, URL, headers and the fields of its
JSON body. -/
structure Request where
  method : String := "GET"
  url : String := ""
  headers : List (String × String) := []
  body : List (String × String) := []
  deriving DecidableEq, Repr

/-- The value of a header of a header object, if it is set. -/
def header (headers : List (String × String)) (name : String) : Option String :=
  headers.lookup name

/-- Assignment `headers[name] = value` on a header object. -/
def setHeader (headers : List (String × String)) (name value : String) :
    List (String × String) :=
  (headers.filter fun h => h.1 != name) ++ [(name, value)]

/-- What the response interceptor touches of the browser: `localStorage` and
`window.location.href`. -/
structure Page where
  storage : Storage := []
  href : String := "/"
  deriving DecidableEq, Repr

end Browser

/-! ## The axios instance of `services/api.js` -/

namespace Api

open Browser

/-- The request interceptor of `api`: its first callback, on the headers of
the request configuration. -/
def requestInterceptor (storage : Storage) (headers : List (String × String)) :
    List (String × String) :=
  match storage.getItem "authToken" with
  | none => headers
  | some token =>
    if token = "" then headers
    else setHeader headers "Authorization" ("Bearer " ++ token)

/-- The response interceptor of `api`: its second callback, run for a failed
request; `status` is `error.response?.status`. The promise is rejected after
it in every case. -/
def responseErrorInterceptor (status : Option Nat) (page : Page) : Page :=
  if status = some 401 then
    { storage := (page.storage.removeItem "authToken").removeItem "user", href := "/login" }
  else page

/-- The response interceptor of `api`: its first callback, run for a
successful request, returns the response and touches nothing. -/
def responseInterceptor (page : Page) : Page :=
  page

end Api

namespace CommentSection

open Browser

/-! ## The requests of `commentAPI` -/

/-- The request sent by `commentAPI.getVideoComments`: a `fetch` of the URL
with no options. -/
def getVideoCommentsRequest (videoId : String) : Request :=
  { method := "GET", url := "http://localhost:5000/api/comments/video/" ++ videoId }

/-- The request sent by `commentAPI.addComment`. -/
def addCommentRequest (storage : Storage) (videoId text : String) : Request :=
  { method := "POST"
    url := "http://localhost:5000/api/comments"
    headers := [("Content-Type", "application/json"),
      ("Authorization", "Bearer " ++ templateText (storage.getItem "authToken"))]
    body := [("videoId", videoId), ("text", text)] }

/-- The request sent by `commentAPI.updateComment`. -/
def updateCommentRequest (storage : Storage) (commentId newText : String) : Request :=
  { method := "PUT"
    url := "http://localhost:5000/api/comments/" ++ commentId
    headers := [("Content-Type", "application/json"),
      ("Authorization", "Bearer " ++ templateText (storage.getItem "authToken"))]
    body := [("text", newText)] }

/-- The request sent by `commentAPI.deleteComment`. -/
def deleteCommentRequest (storage : Storage) (commentId : String) : Request :=
  { method := "DELETE"
    url := "http://localhost:5000/api/comments/" ++ commentId
    headers := [("Authorization", "Bearer " ++ templateText (storage.getItem "authToken"))] }

/-- The request sent by `commentAPI.likeComment`. -/
def likeCommentRequest (storage : Storage) (commentId : String) : Request :=
  { method := "POST"
    url := "http://localhost:5000/api/comments/" ++ commentId ++ "/like"
    headers := [("Authorization", "Bearer " ++ templateText (storage.getItem "authToken"))] }

/-- A call of `commentAPI.getVideoComments` against a server: what it returns
and the page after it. The function reads and writes nothing of the page. -/
def getVideoCommentsCall (server : Request → FetchResult (List Comment)) (videoId : String)
    (page : Page) : Option (List Comment) × Page :=
  (getVideoComments (server (getVideoCommentsRequest videoId)), page)

/-- A call of `commentAPI.addComment` against a server: what it returns or
throws, and the page after it. The function only reads the stored token. -/
def addCommentCall (server : Request → FetchResult Comment) (videoId text : String)
    (page : Page) : Except String (Option Comment) × Page :=
  (addComment (server (addCommentRequest page.storage videoId text)), page)

/-- A call of `commentAPI.updateComment` against a server. -/
def updateCommentCall (server : Request → FetchResult Comment) (commentId newText : String)
    (page : Page) : Except String (Option Comment) × Page :=
  (updateComment (server (updateCommentRequest page.storage commentId newText)), page)

/-- A call of `commentAPI.deleteComment` against a server. -/
def deleteCommentCall (server : Request → FetchResult Unit) (commentId : String)
    (page : Page) : Except String Bool × Page :=
  (deleteComment (server (deleteCommentRequest page.storage commentId)), page)

/-- A call of `commentAPI.likeComment` against a server. -/
def likeCommentCall (server : Request → FetchResult LikeResult) (commentId : String)
    (page : Page) : Except String (Option LikeResult) × Page :=
  (likeComment (server (likeCommentRequest page.storage commentId)), page)

end CommentSection

/-! ## The like and dislike buttons of `pages/VideoPage.js` and `components/VideoPlayer.js`

Both files define `handleLike` and `handleDislike` with the same body. -/

namespace VideoPage

/-- The `useState` cells the two handlers touch. -/
structure LikeState where
  liked : Bool := false
  disliked : Bool := false
  loading : Bool := false
  deriving DecidableEq, Repr

/-- Function `handleLike` up to its `await`; `none` when the guard returns.
The handler reads `liked` and `disliked` of the render that created it,
`render`, and writes the cells of the current state `s`. -/
def handleLikeStart (isAuthenticated : Bool) (render s : LikeState) : Option LikeState :=
  if !isAuthenticated then none
  else
    some { liked := !render.liked, disliked := if render.disliked then false else s.disliked,
           loading := true }

/-- Function `handleLike` from its `await` on: the `catch` block on a failure,
then the `finally` block. -/
def handleLikeResolve (outcome : Except String Unit) (s : LikeState) : LikeState :=
  match outcome with
  | .ok _ => { s with loading := false }
  | .error _ => { s with liked := false, loading := false }

/-- Function `handleLike` of the render `render`, run to completion on the
state `s`; `onLike` is `none` when the prop is absent and otherwise the
outcome of `await onLike(video.videoId)`. -/
def handleLikeOf (isAuthenticated : Bool) (onLike : Option (Except String Unit))
    (render s : LikeState) : LikeState :=
  match handleLikeStart isAuthenticated render s with
  | none => s
  | some s₁ =>
    match onLike with
    | none => { s₁ with loading := false }
    | some outcome => handleLikeResolve outcome s₁

/-- Function `handleLike` of the current render, run to completion: what a
click on the like button calls, the button being bound anew at every render. -/
def handleLike (isAuthenticated : Bool) (onLike : Option (Except String Unit))
    (s : LikeState) : LikeState :=
  handleLikeOf isAuthenticated onLike s s

/-- Function `handleDislike` up to its `await`; `none` when the guard returns.
The handler reads `liked` and `disliked` of the render that created it. -/
def handleDislikeStart (isAuthenticated : Bool) (render s : LikeState) : Option LikeState :=
  if !isAuthenticated then none
  else
    some { liked := if render.liked then false else s.liked, disliked := !render.disliked,
           loading := true }

/-- Function `handleDislike` from its `await` on. -/
def handleDislikeResolve (outcome : Except String Unit) (s : LikeState) : LikeState :=
  match outcome with
  | .ok _ => { s with loading := false }
  | .error _ => { s with disliked := false, loading := false }

/-- Function `handleDislike` of the render `render`, run to completion on the
state `s`. -/
def handleDislikeOf (isAuthenticated : Bool) (onDislike : Option (Except String Unit))
    (render s : LikeState) : LikeState :=
  match handleDislikeStart isAuthenticated render s with
  | none => s
  | some s₁ =>
    match onDislike with
    | none => { s₁ with loading := false }
    | some outcome => handleDislikeResolve outcome s₁

/-- Function `handleDislike` of the current render, run to completion: what a
click on the dislike button calls. -/
def handleDislike (isAuthenticated : Bool) (onDislike : Option (Except String Unit))
    (s : LikeState) : LikeState :=
  handleDislikeOf isAuthenticated onDislike s s

end VideoPage

namespace CommentSection

/-! ## Text length and `canModifyComment` -/

/-- The property `length` of a string: its number of UTF-16 code units. -/
def jsLength (s : String) : Nat :=
  (s.toList.map fun c => if c.toNat < 0x10000 then 1 else 2).sum

/-- Truthiness of an optional string field: absent and empty are falsy. -/
def strTruthy : Option String → Bool
  | some s => s != ""
  | none => false

/-- The value of an id expression: `undefined`, a string, or the inline author
object itself. -/
inductive IdValue where
  | undefined
  | text (value : String)
  | object
  deriving DecidableEq, Repr

/-- An optional string field as a value. -/
def IdValue.ofField : Option String → IdValue
  | some s => .text s
  | none => .undefined

/-- The expression
`comment.author?._id || comment.author?.id || comment.userId || comment.author`. -/
def commentUserId (comment : Comment) : IdValue :=
  match comment.author with
  | .absent =>
    if strTruthy comment.userId then IdValue.ofField comment.userId else .undefined
  | .text value =>
    if strTruthy comment.userId then IdValue.ofField comment.userId else .text value
  | .object _id id =>
    if strTruthy _id then IdValue.ofField _id
    else if strTruthy id then IdValue.ofField id
    else if strTruthy comment.userId then IdValue.ofField comment.userId
    else .object

/-- The expression `user.id || user.userId || user._id`. -/
def currentUserId (user : Viewer) : IdValue :=
  if strTruthy user.id then IdValue.ofField user.id
  else if strTruthy user.userId then IdValue.ofField user.userId
  else IdValue.ofField user._id

/-- The function `canModifyComment`; the comparison is `===`, for which the
author object equals no id of the viewer. -/
def canModifyComment (env : Env) (comment : Comment) : Bool :=
  if !env.isAuthenticated then false
  else
    match env.user with
    | none => false
    | some user => decide (commentUserId comment = currentUserId user)

end CommentSection

/-! ## The auth state of `context/AuthContext.js` -/

namespace AuthContext

open Browser

/-- A user record: the fields of the object, by name. -/
structure User where
  fields : List (String × String) := []
  deriving DecidableEq, Repr

/-- The object spread `{ ...a, ...b }` of two records, up to the order of the
fields: the fields of `b`, and the fields of `a` that `b` does not set. -/
def User.spread (a b : User) : User :=
  { fields := (a.fields.filter fun f => (b.fields.lookup f.1).isNone) ++ b.fields }

/-- The state of `useReducer(authReducer, initialState)`. -/
structure AuthState where
  user : Option User := none
  isAuthenticated : Bool := false
  isLoading : Bool := true
  error : Option String := none
  token : Option String := none
  deriving DecidableEq, Repr

/-- The constant `initialState`. -/
def initialState : AuthState :=
  { user := none, isAuthenticated := false, isLoading := true, error := none, token := none }

/-- The payload of `LOGIN_SUCCESS`, `REGISTER_SUCCESS` and `LOAD_USER`. -/
structure Session where
  user : Option User := none
  token : Option String := none
  deriving DecidableEq, Repr

/-- An action, by its `type` and with its `payload`. -/
inductive Action where
  | loginStart
  | registerStart
  | loginSuccess (payload : Session)
  | registerSuccess (payload : Session)
  | loginFailure (payload : Option String)
  | registerFailure (payload : Option String)
  | logout
  | loadUser (payload : Session)
  | updateUser (payload : Option User)
  | clearError
  | setLoading (payload : Bool)
  /-- An action whose `type` is none of `AUTH_ACTIONS`. -/
  | other (type : String)
  deriving DecidableEq, Repr

/-- The function `authReducer`. -/
def authReducer (state : AuthState) (action : Action) : AuthState :=
  match action with
  | .loginStart | .registerStart => { state with isLoading := true, error := none }
  | .loginSuccess payload | .registerSuccess payload =>
    { state with
      user := payload.user
      token := payload.token
      isAuthenticated := true
      isLoading := false
      error := none }
  | .loginFailure payload | .registerFailure payload =>
    { state with
      user := none
      token := none
      isAuthenticated := false
      isLoading := false
      error := payload }
  | .logout =>
    { state with
      user := none, token := none, isAuthenticated := false, isLoading := false, error := none }
  | .loadUser payload =>
    { state with
      user := payload.user
      token := payload.token
      isAuthenticated := true
      isLoading := false
      error := none }
  | .updateUser payload =>
    { state with
      user := some (User.spread (state.user.getD {}) (payload.getD {}))
      error := none }
  | .clearError => { state with error := none }
  | .setLoading payload => { state with isLoading := payload }
  | .other _ => state

/-- The function `loadUser` of the mount effect, as the state after its
dispatch. `jsonParse` is `JSON.parse` on user records: `error` when it throws,
`ok none` for the value `null`. -/
def loadUser (jsonParse : String → Except String (Option User)) (storage : Storage)
    (state : AuthState) : AuthState :=
  match storage.getItem "authToken", storage.getItem "user" with
  | some token, some userData =>
    if token != "" && userData != "" then
      match jsonParse userData with
      | .ok user => authReducer state (.loadUser { user := user, token := some token })
      | .error _ => authReducer state (.setLoading false)
    else authReducer state (.setLoading false)
  | _, _ => authReducer state (.setLoading false)

/-- What is asked of an action on the way to a reachable state: the payload of
a success or load action carries a user and a token. -/
def Action.payloadOk : Action → Prop
  | .loginSuccess payload => payload.user ≠ none ∧ payload.token ≠ none
  | .registerSuccess payload => payload.user ≠ none ∧ payload.token ≠ none
  | .loadUser payload => payload.user ≠ none ∧ payload.token ≠ none
  | _ => True

/-- The states reached from `initialState` by dispatching such actions. -/
inductive Reachable : AuthState → Prop where
  | init : Reachable initialState
  | dispatch {state : AuthState} (action : Action) :
      Reachable state → action.payloadOk → Reachable (authReducer state action)

end AuthContext

/-! ## The channel form of `components/ChannelForm.js` -/

namespace ChannelForm

open CommentSection

/-- The `formData` cell. -/
structure FormData where
  name : String := ""
  description : String := ""
  category : String := "Technology"
  tags : List String := []
  website : String := ""
  location : String := ""
  contactEmail : String := ""
  deriving DecidableEq, Repr

/-- The `validationErrors` object: the message set for each field, if any. -/
structure ValidationErrors where
  name : Option String := none
  description : Option String := none
  website : Option String := none
  contactEmail : Option String := none
  deriving DecidableEq, Repr

/-- The `useState` cells the tag handlers and the validation touch. -/
structure FormState where
  formData : FormData := {}
  tagInput : String := ""
  validationErrors : ValidationErrors := {}
  deriving DecidableEq, Repr

/-- The `onChange` handler of the tag input: `setTagInput(e.target.value)`. -/
def setTagInput (value : String) (s : FormState) : FormState :=
  { s with tagInput := value }

/-- The function `handleAddTag`. The parameter `toLowerCase` is the built-in
`String.prototype.toLowerCase`. -/
def handleAddTag (toLowerCase : String → String) (s : FormState) : FormState :=
  let tag := toLowerCase (jsTrim s.tagInput)
  if tag != "" && !s.formData.tags.contains tag && decide (s.formData.tags.length < 10) then
    { s with formData := { s.formData with tags := s.formData.tags ++ [tag] }, tagInput := "" }
  else s

/-- The function `handleRemoveTag`. -/
def handleRemoveTag (tagToRemove : String) (s : FormState) : FormState :=
  { s with
    formData := { s.formData with tags := s.formData.tags.filter fun tag => tag != tagToRemove } }

/-- The function `toLowerCase` restricted to the basic Latin letters: every
other character is left as it is. An instance of the parameter of
`handleAddTag`. -/
def toLowerCaseLatin (s : String) : String :=
  String.mk (s.toList.map Char.toLower)

/-- The steps that change the tag list or the tag input. -/
inductive TagStep where
  | type (value : String)
  | add
  | remove (tagToRemove : String)
  deriving DecidableEq, Repr

/-- The state after a step. -/
def TagStep.apply (toLowerCase : String → String) (step : TagStep) (s : FormState) : FormState :=
  match step with
  | .type value => setTagInput value s
  | .add => handleAddTag toLowerCase s
  | .remove tagToRemove => handleRemoveTag tagToRemove s

/-- The state after a sequence of steps, first step first. -/
def runTagSteps (toLowerCase : String → String) (steps : List TagStep) (s : FormState) :
    FormState :=
  steps.foldl (fun state step => step.apply toLowerCase state) s

/-- Whether a list of characters has a `.` that is neither its first nor its
last character. -/
def hasInnerDot (cs : List Char) : Bool :=
  (cs.drop 1).dropLast.contains '.'

/-- The function `isValidEmail`: the test of the regular expression
`^[^\s@]+@[^\s@]+\.[^\s@]+$`. -/
def isValidEmail (email : String) : Bool :=
  let localPart := email.toList.takeWhile fun c => c != '@'
  match email.toList.dropWhile fun c => c != '@' with
  | [] => false
  | _ :: domain =>
    !localPart.isEmpty && localPart.all (fun c => !isJsWhitespace c) &&
      domain.all (fun c => !isJsWhitespace c && c != '@') && hasInnerDot domain

/-- The `errors` object built by `validateForm`. The parameter `isValidUrl`
is the helper of that name, which asks the built-in `URL` constructor. -/
def validationErrorsOf (isValidUrl : String → Bool) (formData : FormData) : ValidationErrors :=
  { name :=
      if jsTrim formData.name = "" then some "Channel name is required"
      else if jsLength formData.name < 3 then
        some "Channel name must be at least 3 characters long"
      else if jsLength formData.name > 50 then
        some "Channel name must be less than 50 characters"
      else none
    description :=
      if jsTrim formData.description = "" then some "Channel description is required"
      else if jsLength formData.description < 10 then
        some "Description must be at least 10 characters long"
      else if jsLength formData.description > 1000 then
        some "Description must be less than 1000 characters"
      else none
    website :=
      if formData.website != "" && !isValidUrl formData.website then
        some "Please enter a valid website URL"
      else none
    contactEmail :=
      if formData.contactEmail != "" && !isValidEmail formData.contactEmail then
        some "Please enter a valid email address"
      else none }

/-- The function `validateForm`: the state after `setValidationErrors(errors)`
and the returned `Object.keys(errors).length === 0`. -/
def validateForm (isValidUrl : String → Bool) (s : FormState) : FormState × Bool :=
  ({ s with validationErrors := validationErrorsOf isValidUrl s.formData },
    decide (validationErrorsOf isValidUrl s.formData = {}))

end ChannelForm

/-! ## Related videos and reachable like states of `pages/VideoPage.js` -/

namespace VideoPage

open CommentSection

/-- A video of the list, up to the fields `relatedVideos` reads; `views` is a
number. -/
structure Video where
  videoId : String := ""
  category : Option String := none
  views : Int := 0
  deriving DecidableEq, Repr

/-- The comparator passed to `sort` in `relatedVideos`. -/
def compareRelated (video a b : Video) : Option Int :=
  if a.category = video.category && b.category != video.category then some (-1)
  else if b.category = video.category && a.category != video.category then some 1
  else some (b.views - a.views)

/-- The value `relatedVideos`: `mockVideos` is the imported list, `video` the
prop and `relatedVideosCount` the state cell. -/
def relatedVideos (mockVideos : List Video) (video : Video) (relatedVideosCount : Nat) :
    List Video :=
  (arraySort (compareRelated video)
    (mockVideos.filter fun v => v.videoId != video.videoId)).take relatedVideosCount

/-- The page of `pages/VideoPage.js` as far as the like cells go: the current
cells, and the render whose `handleLike` the `keydown` listener calls. The
listener is set by an effect with the dependencies `isAuthenticated`, `liked`
and `subscribed`, so it is bound anew only when one of these changes;
`isAuthenticated` is taken not to change while the page is shown. -/
structure Page where
  cells : LikeState := {}
  subscribed : Bool := false
  bound : LikeState := {}
  boundSubscribed : Bool := false
  deriving DecidableEq, Repr

/-- A render after a state update: the keyboard effect runs again, and binds
the handlers of this render, when `liked` or `subscribed` differ from what
they were when it last ran. -/
def Page.render (p : Page) : Page :=
  if p.cells.liked != p.bound.liked || p.subscribed != p.boundSubscribed then
    { p with bound := p.cells, boundSubscribed := p.subscribed }
  else p

/-- A state update of the like cells, followed by the render it causes. -/
def Page.set (cells : LikeState) (p : Page) : Page :=
  Page.render { p with cells := cells }

/-- A click on the like button: `handleLike` of the current render, with a
render after the part before the `await` and one after the rest. -/
def Page.clickLike (isAuthenticated : Bool) (onLike : Option (Except String Unit))
    (p : Page) : Page :=
  match handleLikeStart isAuthenticated p.cells p.cells with
  | none => p
  | some s₁ =>
    match onLike with
    | none => (p.set s₁).set { (p.set s₁).cells with loading := false }
    | some outcome => (p.set s₁).set (handleLikeResolve outcome (p.set s₁).cells)

/-- A click on the dislike button: `handleDislike` of the current render. -/
def Page.clickDislike (isAuthenticated : Bool) (onDislike : Option (Except String Unit))
    (p : Page) : Page :=
  match handleDislikeStart isAuthenticated p.cells p.cells with
  | none => p
  | some s₁ =>
    match onDislike with
    | none => (p.set s₁).set { (p.set s₁).cells with loading := false }
    | some outcome => (p.set s₁).set (handleDislikeResolve outcome (p.set s₁).cells)

/-- The key `l` pressed outside an input: the listener runs
`if (isAuthenticated) handleLike()` with the `handleLike` of the render it is
bound to. -/
def Page.pressL (isAuthenticated : Bool) (onLike : Option (Except String Unit))
    (p : Page) : Page :=
  if !isAuthenticated then p
  else
    match handleLikeStart isAuthenticated p.bound p.cells with
    | none => p
    | some s₁ =>
      match onLike with
      | none => (p.set s₁).set { (p.set s₁).cells with loading := false }
      | some outcome => (p.set s₁).set (handleLikeResolve outcome (p.set s₁).cells)

/-- A change of the `subscribed` cell (`handleSubscribe`), followed by the
render it causes. -/
def Page.toggleSubscribed (isAuthenticated : Bool) (p : Page) : Page :=
  if !isAuthenticated then p
  else Page.render { p with subscribed := !p.subscribed }

end VideoPage

namespace CommentSection

open Browser

/-! ## Properties of `sortComments` -/

/-- Reading the store after a spread copy: old references are untouched. -/
theorem ArrayStore.read_spread_old (σ : ArrayStore) (xs : List Comment) (r : Nat)
    (hr : r < σ.length) : (ArrayStore.spread σ xs).1.read r = σ.read r := by
  simp [ArrayStore.spread, ArrayStore.read, List.getElem?_append_left hr]

/-- Reading the store after a spread copy: the new reference holds the copy. -/
theorem ArrayStore.read_spread_new (σ : ArrayStore) (xs : List Comment) :
    (ArrayStore.spread σ xs).1.read (ArrayStore.spread σ xs).2 = some xs := by
  simp [ArrayStore.spread, ArrayStore.read]

/-- The store effect of `sortComments`: every array that existed before the
call is unchanged, and the returned reference is a new array holding the
sorted elements. -/
theorem sortCommentsInStore_spec (sortBy : String) (σ : ArrayStore) (r : Nat)
    (cs : List Comment) (h : σ.read r = some cs) :
    (∀ q, q < σ.length → (sortCommentsInStore sortBy σ r).1.read q = σ.read q) ∧
    (sortCommentsInStore sortBy σ r).2 = σ.length ∧
    (sortCommentsInStore sortBy σ r).1.read (sortCommentsInStore sortBy σ r).2 =
      some (sortComments sortBy (some cs)) := by
  simp only [sortCommentsInStore, h, ArrayStore.spread, ArrayStore.sortInPlace, sortComments]
  simp only [ArrayStore.read] at h ⊢
  refine ⟨?_, ?_, ?_⟩
  · intro q hq
    simp [List.getElem?_set, List.getElem?_append_left hq, Nat.ne_of_gt hq]
  · simp
  · simp [List.getElem?_set]

theorem read_lt_length (σ : ArrayStore) (r : Nat) (cs : List Comment)
    (h : σ.read r = some cs) : r < σ.length := by
  simp only [ArrayStore.read] at h
  by_contra hn
  rw [List.getElem?_eq_none (Nat.le_of_not_lt hn)] at h
  cases h

/-- C1. For every sort key and every array in the store, `sortComments`
leaves the array passed in (and every other existing array) as it was, and a
second call on the same array returns the same ordering as the first. -/
theorem sortComments_pure (sortBy : String) (σ : ArrayStore) (r : Nat) (cs : List Comment)
    (h : σ.read r = some cs) :
    (sortCommentsInStore sortBy σ r).1.read r = some cs ∧
    (sortCommentsInStore sortBy (sortCommentsInStore sortBy σ r).1 r).1.read r = some cs ∧
    (sortCommentsInStore sortBy (sortCommentsInStore sortBy σ r).1 r).1.read
        (sortCommentsInStore sortBy (sortCommentsInStore sortBy σ r).1 r).2 =
      (sortCommentsInStore sortBy σ r).1.read (sortCommentsInStore sortBy σ r).2 ∧
    (sortCommentsInStore sortBy σ r).1.read (sortCommentsInStore sortBy σ r).2 =
      some (sortComments sortBy (some cs)) := by
  have hr := read_lt_length σ r cs h
  obtain ⟨h1, _, h3⟩ := sortCommentsInStore_spec sortBy σ r cs h
  have h1r : (sortCommentsInStore sortBy σ r).1.read r = some cs := by rw [h1 r hr, h]
  obtain ⟨k1, _, k3⟩ :=
    sortCommentsInStore_spec sortBy (sortCommentsInStore sortBy σ r).1 r cs h1r
  have hr2 := read_lt_length _ r cs h1r
  exact ⟨h1r, by rw [k1 r hr2, h1r], by rw [k3, h3], h3⟩

/-- Witness of C1 on a store holding one two-element array. -/
theorem sortComments_pure_witness :
    ArrayStore.read [[{ _id := "b", createdAt := .at 2 }, { _id := "a", createdAt := .at 1 }]] 0 =
      some [{ _id := "b", createdAt := .at 2 }, { _id := "a", createdAt := .at 1 }] ∧
    (sortCommentsInStore "oldest"
        [[{ _id := "b", createdAt := .at 2 }, { _id := "a", createdAt := .at 1 }]] 0).1.read 0 =
      some [{ _id := "b", createdAt := .at 2 }, { _id := "a", createdAt := .at 1 }] :=
  ⟨by decide,
    (sortComments_pure "oldest"
      [[{ _id := "b", createdAt := .at 2 }, { _id := "a", createdAt := .at 1 }]] 0
      [{ _id := "b", createdAt := .at 2 }, { _id := "a", createdAt := .at 1 }] (by decide)).1⟩


/-- Inserting into a sorted list keeps it sorted, for an order that is total
and transitive on the elements involved. -/
theorem sorted_orderedInsert_on {α : Type} (r : α → α → Prop) [DecidableRel r] (P : α → Prop)
    (htot : ∀ a b, P a → P b → r a b ∨ r b a)
    (htrans : ∀ a b c, P a → P b → P c → r a b → r b c → r a c)
    (a : α) (ha : P a) :
    ∀ l : List α, (∀ x ∈ l, P x) → l.Sorted r → (l.orderedInsert r a).Sorted r := by
  intro l
  induction l with
  | nil => intro _ _; simp
  | cons b l ih =>
    intro hP hs
    have hb : P b := hP b (List.mem_cons_self b l)
    have hl : ∀ x ∈ l, P x := fun x hx => hP x (List.mem_cons_of_mem b hx)
    rw [List.orderedInsert]
    split
    · rename_i hab
      refine List.sorted_cons.2 ⟨?_, hs⟩
      intro c hc
      rcases List.mem_cons.1 hc with rfl | hc
      · exact hab
      · exact htrans a b c ha hb (hl c hc) hab (List.rel_of_sorted_cons hs c hc)
    · rename_i hab
      have hba : r b a := (htot a b ha hb).resolve_left hab
      refine List.sorted_cons.2 ⟨?_, ih hl hs.of_cons⟩
      intro c hc
      rcases (List.mem_orderedInsert r).1 hc with rfl | hc
      · exact hba
      · exact List.rel_of_sorted_cons hs c hc

/-- Sorting yields a sorted list when the order read off the comparator is
total and transitive on the elements of the array. -/
theorem arraySort_sorted_on {α : Type} (comparefn : α → α → Option Int) (P : α → Prop)
    (htot : ∀ a b, P a → P b → sortLE comparefn a b ∨ sortLE comparefn b a)
    (htrans : ∀ a b c, P a → P b → P c →
      sortLE comparefn a b → sortLE comparefn b c → sortLE comparefn a c) :
    ∀ l : List α, (∀ x ∈ l, P x) → (arraySort comparefn l).Sorted (sortLE comparefn) := by
  intro l
  induction l with
  | nil => intro _; simp [arraySort]
  | cons a l ih =>
    intro hP
    have hl : ∀ x ∈ l, P x := fun x hx => hP x (List.mem_cons_of_mem a hx)
    simp only [arraySort, List.insertionSort]
    refine sorted_orderedInsert_on _ P htot htrans a (hP a (List.mem_cons_self a l)) _ ?_ (ih hl)
    intro x hx
    exact hl x ((List.mem_insertionSort _).1 hx)

/-- Membership in the result of a sort. -/
theorem mem_arraySort {α : Type} (comparefn : α → α → Option Int) (l : List α) (x : α) :
    x ∈ arraySort comparefn l ↔ x ∈ l :=
  List.mem_insertionSort _

/-- The order of the key `newest` on two comments with valid dates. -/
theorem sortLE_newest (sortBy : String) (h1 : sortBy ≠ "oldest") (h2 : sortBy ≠ "popular")
    (a b : Comment) (ta tb : Int) (ha : dateOf a = some ta) (hb : dateOf b = some tb) :
    sortLE (compareComments sortBy) a b ↔ tb ≤ ta := by
  simp [sortLE, sortCompare, compareComments, h1, h2, ha, hb, jsSub]

/-- The order of the key `oldest` on two comments with valid dates. -/
theorem sortLE_oldest (a b : Comment) (ta tb : Int) (ha : dateOf a = some ta)
    (hb : dateOf b = some tb) : sortLE (compareComments "oldest") a b ↔ ta ≤ tb := by
  simp [sortLE, sortCompare, compareComments, ha, hb, jsSub]

/-- The order of the key `popular`. -/
theorem sortLE_popular (a b : Comment) :
    sortLE (compareComments "popular") a b ↔ likesOf b ≤ likesOf a := by
  have h : ("popular" = "oldest") = False := by decide
  simp [sortLE, sortCompare, compareComments, h]

/-- C2. When every entry has a valid creation date, `sortComments` with key
`newest` returns the entries with dates descending: each entry's date is at
least that of every entry after it, in particular of the next one. -/
theorem sortComments_newest_descending (cs : List Comment)
    (hvalid : ∀ c ∈ cs, (dateOf c).isSome = true) :
    (sortComments "newest" (some cs)).Sorted
      (fun a b => ∃ ta tb, dateOf a = some ta ∧ dateOf b = some tb ∧ tb ≤ ta) := by
  have h1 : "newest" ≠ "oldest" := by decide
  have h2 : "newest" ≠ "popular" := by decide
  have key := arraySort_sorted_on (compareComments "newest") (fun c => (dateOf c).isSome = true)
    (by
      intro a b ha hb
      obtain ⟨ta, hta⟩ := Option.isSome_iff_exists.1 ha
      obtain ⟨tb, htb⟩ := Option.isSome_iff_exists.1 hb
      rw [sortLE_newest _ h1 h2 a b ta tb hta htb, sortLE_newest _ h1 h2 b a tb ta htb hta]
      exact le_total tb ta)
    (by
      intro a b c ha hb hc
      obtain ⟨ta, hta⟩ := Option.isSome_iff_exists.1 ha
      obtain ⟨tb, htb⟩ := Option.isSome_iff_exists.1 hb
      obtain ⟨tc, htc⟩ := Option.isSome_iff_exists.1 hc
      rw [sortLE_newest _ h1 h2 a b ta tb hta htb, sortLE_newest _ h1 h2 b c tb tc htb htc,
        sortLE_newest _ h1 h2 a c ta tc hta htc]
      exact fun hab hbc => le_trans hbc hab)
    cs hvalid
  simp only [sortComments]
  refine List.Pairwise.imp_of_mem ?_ key
  intro a b ha hb hab
  obtain ⟨ta, hta⟩ := Option.isSome_iff_exists.1 (hvalid a ((mem_arraySort _ _ _).1 ha))
  obtain ⟨tb, htb⟩ := Option.isSome_iff_exists.1 (hvalid b ((mem_arraySort _ _ _).1 hb))
  exact ⟨ta, tb, hta, htb, (sortLE_newest _ h1 h2 a b ta tb hta htb).1 hab⟩

/-- Witness of C2 on three comments stored out of order. -/
theorem sortComments_newest_descending_witness :
    (∀ c ∈ ([{ _id := "a", createdAt := .at 1 }, { _id := "c", timestamp := .at 3 },
        { _id := "b", createdAt := .at 2 }] : List Comment), (dateOf c).isSome = true) ∧
    (sortComments "newest" (some [{ _id := "a", createdAt := .at 1 },
        { _id := "c", timestamp := .at 3 }, { _id := "b", createdAt := .at 2 }])).Sorted
      (fun a b => ∃ ta tb, dateOf a = some ta ∧ dateOf b = some tb ∧ tb ≤ ta) :=
  ⟨by decide, sortComments_newest_descending _ (by decide)⟩

/-- C3. When every entry has a valid creation date, `sortComments` with key
`oldest` returns the entries with dates ascending: each entry's date is at
most that of every entry after it, in particular of the next one. -/
theorem sortComments_oldest_ascending (cs : List Comment)
    (hvalid : ∀ c ∈ cs, (dateOf c).isSome = true) :
    (sortComments "oldest" (some cs)).Sorted
      (fun a b => ∃ ta tb, dateOf a = some ta ∧ dateOf b = some tb ∧ ta ≤ tb) := by
  have key := arraySort_sorted_on (compareComments "oldest") (fun c => (dateOf c).isSome = true)
    (by
      intro a b ha hb
      obtain ⟨ta, hta⟩ := Option.isSome_iff_exists.1 ha
      obtain ⟨tb, htb⟩ := Option.isSome_iff_exists.1 hb
      rw [sortLE_oldest a b ta tb hta htb, sortLE_oldest b a tb ta htb hta]
      exact le_total ta tb)
    (by
      intro a b c ha hb hc
      obtain ⟨ta, hta⟩ := Option.isSome_iff_exists.1 ha
      obtain ⟨tb, htb⟩ := Option.isSome_iff_exists.1 hb
      obtain ⟨tc, htc⟩ := Option.isSome_iff_exists.1 hc
      rw [sortLE_oldest a b ta tb hta htb, sortLE_oldest b c tb tc htb htc,
        sortLE_oldest a c ta tc hta htc]
      exact fun hab hbc => le_trans hab hbc)
    cs hvalid
  simp only [sortComments]
  refine List.Pairwise.imp_of_mem ?_ key
  intro a b ha hb hab
  obtain ⟨ta, hta⟩ := Option.isSome_iff_exists.1 (hvalid a ((mem_arraySort _ _ _).1 ha))
  obtain ⟨tb, htb⟩ := Option.isSome_iff_exists.1 (hvalid b ((mem_arraySort _ _ _).1 hb))
  exact ⟨ta, tb, hta, htb, (sortLE_oldest a b ta tb hta htb).1 hab⟩

/-- Witness of C3 on three comments stored out of order. -/
theorem sortComments_oldest_ascending_witness :
    (∀ c ∈ ([{ _id := "c", createdAt := .at 3 }, { _id := "a", timestamp := .at 1 },
        { _id := "b", createdAt := .at 2 }] : List Comment), (dateOf c).isSome = true) ∧
    (sortComments "oldest" (some [{ _id := "c", createdAt := .at 3 },
        { _id := "a", timestamp := .at 1 }, { _id := "b", createdAt := .at 2 }])).Sorted
      (fun a b => ∃ ta tb, dateOf a = some ta ∧ dateOf b = some tb ∧ ta ≤ tb) :=
  ⟨by decide, sortComments_oldest_ascending _ (by decide)⟩


/-- Inserting a comment by like count puts it in front of the stored comments
of equal like count: among the comments of any one like count, the order is
that of `a :: l`. -/
theorem filter_orderedInsert_popular (k : Int) (a : Comment) :
    ∀ l : List Comment,
      (l.orderedInsert (sortLE (compareComments "popular")) a).filter
          (fun c => decide (likesOf c = k)) =
        (a :: l).filter (fun c => decide (likesOf c = k)) := by
  intro l
  induction l with
  | nil => simp
  | cons b l ih =>
    rw [List.orderedInsert]
    split
    · rfl
    · rename_i hab
      rw [sortLE_popular] at hab
      rw [List.filter_cons, ih]
      by_cases hb : likesOf b = k
      · have ha : ¬ likesOf a = k := by omega
        simp [List.filter_cons, hb, ha]
      · simp [List.filter_cons, hb]

/-- C4, what fails: two comments of equal like count stored older first stay
older first under key `popular`; the later one is not moved to the front. -/
theorem popular_ties_counterexample :
    sortComments "popular"
        (some [{ _id := "old", likeCount := some 1, createdAt := .at 1 },
          { _id := "new", likeCount := some 1, createdAt := .at 2 }]) =
      [{ _id := "old", likeCount := some 1, createdAt := .at 1 },
        { _id := "new", likeCount := some 1, createdAt := .at 2 }] ∧
    likesOf { _id := "old", likeCount := some 1, createdAt := .at 1 } =
      likesOf { _id := "new", likeCount := some 1, createdAt := .at 2 } ∧
    dateOf { _id := "old", likeCount := some 1, createdAt := .at 1 } = some 1 ∧
    dateOf { _id := "new", likeCount := some 1, createdAt := .at 2 } = some 2 := by
  decide

/-- C4, amended. For every comment list, `sortComments` with key `popular`
returns the entries in descending like count, and the entries of any one like
count appear in their storage order, whatever their creation dates. -/
theorem sortComments_popular_stable (cs : List Comment) :
    (sortComments "popular" (some cs)).Sorted (fun a b => likesOf b ≤ likesOf a) ∧
    ∀ k : Int,
      (sortComments "popular" (some cs)).filter (fun c => decide (likesOf c = k)) =
        cs.filter (fun c => decide (likesOf c = k)) := by
  constructor
  · have key := arraySort_sorted_on (compareComments "popular") (fun _ => True)
      (by
        intro a b _ _
        rw [sortLE_popular, sortLE_popular]
        exact le_total _ _)
      (by
        intro a b c _ _ _
        rw [sortLE_popular, sortLE_popular, sortLE_popular]
        exact fun hab hbc => le_trans hbc hab)
      cs (fun _ _ => trivial)
    simp only [sortComments]
    exact List.Pairwise.imp (fun {a b} hab => (sortLE_popular a b).1 hab) key
  · intro k
    simp only [sortComments, arraySort]
    induction cs with
    | nil => simp
    | cons a l ih =>
      rw [List.insertionSort, filter_orderedInsert_popular, List.filter_cons, List.filter_cons, ih]


/-! ## Properties of the gateway and of the cache -/

/-- C5. The function `getVideoComments` returns a value for every outcome of
the request: `[]` on a transport failure, on a non-OK status, on an
unparsable or `null` body and on a body whose `success` is false (the `try`
block throws in the first four cases), and the `data` of the body on an OK
response whose `success` is true. -/
theorem getVideoComments_never_fails :
    (∀ m, getVideoCommentsTry (.rejected m) = .error m ∧
      getVideoComments (.rejected m) = some []) ∧
    (∀ status body, (∃ e, getVideoCommentsTry (.response false status body) = .error e) ∧
      getVideoComments (.response false status body) = some []) ∧
    (∀ status text, (∃ e, getVideoCommentsTry (.response true status (.invalid text)) = .error e) ∧
      getVideoComments (.response true status (.invalid text)) = some []) ∧
    (∀ status, (∃ e, getVideoCommentsTry (.response true status .null) = .error e) ∧
      getVideoComments (.response true status .null) = some []) ∧
    (∀ status data message,
      getVideoComments (.response true status (.object false data message)) = some []) ∧
    (∀ status data message,
      getVideoComments (.response true status (.object true data message)) = data) := by
  refine ⟨?_, ?_, ?_, ?_, ?_, ?_⟩
  · intro m; exact ⟨rfl, rfl⟩
  · intro status body; exact ⟨⟨_, rfl⟩, rfl⟩
  · intro status text; exact ⟨⟨_, rfl⟩, rfl⟩
  · intro status; exact ⟨⟨_, rfl⟩, rfl⟩
  · intro status data message; rfl
  · intro status data message; rfl

/-- C6. After the continuation of a load, of a poll tick or of a manual
refresh, the cache is exactly the list the fetch returned (the empty list
when it returned a nullish value): whatever the prior cache held, an entry
that is not in that list is not in the cache. -/
theorem refresh_replaces_cache (r : FetchResult (List Comment)) (s : State) :
    (loadCommentsResolve r s).comments = orEmpty (getVideoComments r) ∧
    (pollTickResolve r s).comments = orEmpty (getVideoComments r) ∧
    (forceReloadCommentsResolve r s).comments = orEmpty (getVideoComments r) ∧
    orEmpty none = [] ∧
    (∀ cs, orEmpty (some cs) = cs) ∧
    ∀ c, c ∉ orEmpty (getVideoComments r) →
      c ∉ (loadCommentsResolve r s).comments ∧ c ∉ (pollTickResolve r s).comments ∧
        c ∉ (forceReloadCommentsResolve r s).comments :=
  ⟨rfl, rfl, rfl, rfl, fun _ => rfl, fun _ h => ⟨h, h, h⟩⟩

/-- An edit keeps the ids of the cache. -/
theorem cacheIds_edit (commentId editText : String) (u : Except String (Option Comment))
    (s : State) : cacheIds (handleEditCommentResolve commentId editText u s) = cacheIds s := by
  unfold handleEditCommentResolve cacheIds
  split
  · simp only [List.map_map]
    apply List.map_congr_left
    intro c _
    simp only [Function.comp]
    split <;> rfl
  · rfl
  · rfl

/-- A like keeps the ids of the cache. -/
theorem cacheIds_like (commentId : String) (u : Except String (Option LikeResult))
    (s : State) : cacheIds (handleLikeCommentResolve commentId u s) = cacheIds s := by
  unfold handleLikeCommentResolve cacheIds
  split
  · simp only [List.map_map]
    apply List.map_congr_left
    intro c _
    simp only [Function.comp]
    split <;> rfl
  · rfl
  · rfl

/-- A delete leaves a sublist of the ids of the cache. -/
theorem cacheIds_delete (commentId : String) (u : Except String Bool) (s : State) :
    (cacheIds (handleDeleteCommentResolve commentId u s)).Sublist (cacheIds s) := by
  unfold handleDeleteCommentResolve cacheIds
  split
  · exact List.Sublist.map _ (List.filter_sublist _)
  · exact List.Sublist.refl _

/-- The start of a handler leaves the ids of the cache as they are. -/
theorem cacheIds_start (env : Env) (s : State) :
    cacheIds (loadCommentsStart env s).1 = cacheIds s ∧
    cacheIds (forceReloadCommentsStart env s).1 = cacheIds s ∧
    cacheIds (handleSubmitCommentStart env s).1 = cacheIds s := by
  refine ⟨?_, ?_, ?_⟩
  · unfold loadCommentsStart
    split
    · rfl
    · split <;> rfl
  · unfold forceReloadCommentsStart
    split <;> rfl
  · unfold handleSubmitCommentStart
    split
    · rfl
    · split <;> rfl

/-- A world stays consistent when the ids of its cache are thinned out. -/
theorem World.Consistent.of_sublist {w : World} (h : w.Consistent) (ui : State)
    (hsub : (cacheIds ui).Sublist (cacheIds w.ui)) :
    World.Consistent { w with ui := ui } := by
  obtain ⟨h1, h2, h3, h4, h5⟩ := h
  exact ⟨h1.sublist hsub, fun i hi => h2 i (hsub.subset hi), h3, h4,
    fun d hd hin => h5 d hd (hsub.subset hin)⟩

/-- A world stays consistent when its cache is replaced by a list whose ids
are distinct, given out by the server and not being confirmed. -/
theorem World.Consistent.of_list {w : World} (h : w.Consistent)
    (r : FetchResult (List Comment)) (ui : State)
    (hui : ui.comments = orEmpty (getVideoComments r))
    (hok : ∀ cs, getVideoComments r = some cs →
      (cs.map fun c => c._id).Nodup ∧ (∀ c ∈ cs, c._id ∈ w.issued) ∧
      ((true : Bool) = true → ∀ c ∈ cs, c._id ∉ w.confirming.map fun d => d._id)) :
    World.Consistent { w with ui := ui } := by
  obtain ⟨_, _, h3, h4, _⟩ := h
  cases hg : getVideoComments r with
  | none =>
    have hids : cacheIds ui = [] := by simp [cacheIds, hui, hg, orEmpty]
    exact ⟨by simp [hids], by simp [hids], h3, h4, by simp [hids]⟩
  | some cs =>
    obtain ⟨k1, k2, k3⟩ := hok cs hg
    have hids : cacheIds ui = cs.map fun c => c._id := by simp [cacheIds, hui, hg, orEmpty]
    refine ⟨by rw [hids]; exact k1, ?_, h3, h4, ?_⟩
    · intro i hi
      rw [hids] at hi
      obtain ⟨c, hc, rfl⟩ := List.mem_map.1 hi
      exact k2 c hc
    · intro d hd hin
      rw [hids] at hin
      obtain ⟨c, hc, hcd⟩ := List.mem_map.1 hin
      exact k3 rfl c hc (List.mem_map.2 ⟨d, hd, hcd.symm⟩)

/-- A world stays consistent through every event, as long as no list
overtakes a confirmation. -/
theorem World.Consistent.after {w : World} (h : w.Consistent) (e : Event)
    (he : e.serverOk true w) : (w.after e).Consistent := by
  cases e with
  | loadStarted env => exact h.of_sublist _ (by
      show (cacheIds (loadCommentsStart env w.ui).1).Sublist (cacheIds w.ui)
      rw [(cacheIds_start env w.ui).1])
  | loadResolved r => exact h.of_list r _ rfl he
  | pollResolved r => exact h.of_list r _ rfl he
  | reloadStarted env => exact h.of_sublist _ (by
      show (cacheIds (forceReloadCommentsStart env w.ui).1).Sublist (cacheIds w.ui)
      rw [(cacheIds_start env w.ui).2.1])
  | reloadResolved r => exact h.of_list r _ rfl he
  | submitStarted env => exact h.of_sublist _ (by
      show (cacheIds (handleSubmitCommentStart env w.ui).1).Sublist (cacheIds w.ui)
      rw [(cacheIds_start env w.ui).2.2])
  | submitResolved r =>
    simp only [Event.serverOk] at he
    simp only [World.after, Event.apply]
    cases ha : addComment r with
    | error m => exact h.of_sublist _ (List.Sublist.refl _)
    | ok v =>
      cases v with
      | none => exact h.of_sublist _ (List.Sublist.refl _)
      | some c =>
        obtain ⟨h1, h2, h3, h4, h5⟩ := h
        have hc := he c ha
        have hsub : (w.confirming.erase c).Sublist w.confirming := List.erase_sublist _ _
        refine ⟨?_, ?_, ?_, ?_, ?_⟩
        · simp only [handleSubmitCommentResolve, cacheIds, List.map_cons, List.nodup_cons]
          exact ⟨h5 c hc, h1⟩
        · intro i hi
          simp only [handleSubmitCommentResolve, cacheIds, List.map_cons, List.mem_cons] at hi
          rcases hi with rfl | hi
          · exact h4 c hc
          · exact h2 i hi
        · exact h3.sublist (hsub.map _)
        · exact fun d hd => h4 d (hsub.subset hd)
        · intro d hd hin
          simp only [handleSubmitCommentResolve, cacheIds, List.map_cons, List.mem_cons] at hin
          have hnd : w.confirming.Nodup := List.Nodup.of_map _ h3
          have hdc := (List.Nodup.mem_erase_iff hnd).1 hd
          rcases hin with hid | hin
          · exact hdc.1 (List.inj_on_of_nodup_map h3 hdc.2 hc hid)
          · exact h5 d hdc.2 hin
  | editResolved commentId editText r =>
    exact h.of_sublist _ (by simp only [Event.apply, cacheIds_edit]; exact List.Sublist.refl _)
  | deleteResolved commentId r => exact h.of_sublist _ (cacheIds_delete commentId _ w.ui)
  | likeResolved commentId r =>
    exact h.of_sublist _ (by simp only [Event.apply, cacheIds_like]; exact List.Sublist.refl _)

/-- C7, what fails: the server holds comment `c1`, the component loads it,
the server creates `c3` under a fresh id, a poll returns `[c3, c1]` before the
confirmation of `c3` is applied, and the confirmation then puts `c3` in front
of the cache a second time. Every list has distinct ids and every created id
is fresh. -/
theorem overtaking_poll_counterexample :
    World.Reachable false
      { ui := { comments := [{ _id := "c3" }, { _id := "c3" }, { _id := "c1" }] },
        issued := ["c3", "c1"], confirming := [] } ∧
    cacheIds { comments := [{ _id := "c3" }, { _id := "c3" }, { _id := "c1" }] } =
      ["c3", "c3", "c1"] ∧
    ¬ (cacheIds { comments := [{ _id := "c3" }, { _id := "c3" }, { _id := "c1" }] }).Nodup := by
  refine ⟨?_, by decide, by decide⟩
  have h0 : World.Reachable false { issued := ["c1"] } := World.Reachable.init ["c1"]
  have h1 := World.Reachable.step
    (.loadResolved (.response true 200 (.object true (some [{ _id := "c1" }]) ""))) h0
    (by
      intro cs hcs
      simp only [getVideoComments, getVideoCommentsTry] at hcs
      cases hcs
      decide)
  have h2 := World.Reachable.create { _id := "c3" } h1 (by decide)
  have h3 := World.Reachable.step
    (.pollResolved
      (.response true 200 (.object true (some [{ _id := "c3" }, { _id := "c1" }]) ""))) h2
    (by
      intro cs hcs
      simp only [getVideoComments, getVideoCommentsTry] at hcs
      cases hcs
      decide)
  have h4 := World.Reachable.step
    (.submitResolved (.response true 201 (.object true (some { _id := "c3" }) ""))) h3
    (by
      intro c hc
      simp only [addComment] at hc
      cases hc
      decide)
  exact h4

/-- C7, amended. Provided every list the server returns has pairwise
distinct ids, every created comment gets an id the server has not given out
before, and no list carries a created comment whose confirmation has not been
applied yet, in every state reachable from the empty cache through any
interleaving of load, poll and refresh replacements and of submit, edit,
delete and like continuations, no two cache entries have the same id. -/
theorem cache_ids_distinct (w : World) (h : World.Reachable true w) :
    (cacheIds w.ui).Nodup := by
  have hc : w.Consistent := by
    induction h with
    | init issued => exact ⟨by simp [cacheIds], by simp [cacheIds], by simp, by simp, by simp⟩
    | @create w c _ hfresh ih =>
      obtain ⟨h1, h2, h3, h4, h5⟩ := ih
      refine ⟨h1, fun i hi => List.mem_cons_of_mem _ (h2 i hi), ?_, ?_, ?_⟩
      · simp only [List.map_cons, List.nodup_cons]
        refine ⟨?_, h3⟩
        intro hin
        obtain ⟨d, hd, hdc⟩ := List.mem_map.1 hin
        exact hfresh (hdc ▸ h4 d hd)
      · intro d hd
        rcases List.mem_cons.1 hd with rfl | hd
        · exact List.mem_cons_self _ _
        · exact List.mem_cons_of_mem _ (h4 d hd)
      · intro d hd hin
        rcases List.mem_cons.1 hd with rfl | hd
        · exact hfresh (h2 _ hin)
        · exact h5 d hd hin
    | step e _ he ih => exact ih.after e he
  exact hc.1

/-- Witness of C7, amended: a load of two comments, then a third is created
and confirmed. -/
theorem cache_ids_distinct_witness :
    World.Reachable true
      { ui := { comments := [{ _id := "c3" }, { _id := "c1" }, { _id := "c2" }] },
        issued := ["c3", "c1", "c2"], confirming := [] } ∧
    (cacheIds { comments := [{ _id := "c3" }, { _id := "c1" }, { _id := "c2" }] }).Nodup :=
  have hr : World.Reachable true
      { ui := { comments := [{ _id := "c3" }, { _id := "c1" }, { _id := "c2" }] },
        issued := ["c3", "c1", "c2"], confirming := [] } :=
    World.Reachable.step
      (.submitResolved (.response true 201 (.object true (some { _id := "c3" }) "")))
      (World.Reachable.create { _id := "c3" }
        (World.Reachable.step
          (.loadResolved
            (.response true 200 (.object true (some [{ _id := "c1" }, { _id := "c2" }]) "")))
          (World.Reachable.init ["c1", "c2"])
          (by
            intro cs hcs
            simp only [getVideoComments, getVideoCommentsTry] at hcs
            cases hcs
            decide))
        (by decide))
      (by
        intro c hc
        simp only [addComment] at hc
        cases hc
        decide)
  ⟨hr, cache_ids_distinct _ hr⟩

/-! ## Properties of `handleSubmitComment` -/

/-- C8, what fails: after an accepted submit trigger on an empty cache the
create request is issued and the cache is still empty; no entry for the new
comment is there before the request resolves. -/
theorem submit_trigger_counterexample :
    handleSubmitCommentStart { video := some { videoId := "v1" }, isAuthenticated := true }
        { newComment := "Hello" } =
      ({ newComment := "Hello", submitting := true },
        some { videoId := "v1", text := "Hello" }) ∧
    (handleSubmitCommentStart { video := some { videoId := "v1" }, isAuthenticated := true }
        { newComment := "Hello" }).1.comments = [] := by
  decide

/-- C8, amended. For every cache and every accepted submit trigger, the
cache is unchanged after the trigger and until the create request resolves
(only the submitting flag is set, and the request carries the trimmed
input); when the server confirms, the confirmed comment is put at the front
of the cache as it is then. -/
theorem submit_adds_on_confirmation (env : Env) (s s₁ : State) (req : CreateRequest)
    (h : handleSubmitCommentStart env s = (s₁, some req)) :
    s₁.comments = s.comments ∧ s₁.submitting = true ∧ req.text = jsTrim s.newComment ∧
    ∀ (c : Comment) (s₂ : State),
      (handleSubmitCommentResolve (.ok (some c)) s₂).comments = c :: s₂.comments ∧
      (handleSubmitCommentResolve (.ok (some c)) s₂).submitting = false := by
  unfold handleSubmitCommentStart at h
  split at h
  · cases h
  · split at h
    · cases h
    · cases h
      exact ⟨rfl, rfl, rfl, fun _ _ => ⟨rfl, rfl⟩⟩

/-- Witness of C8, amended: a signed-in viewer submits "Hello". -/
theorem submit_adds_on_confirmation_witness :
    handleSubmitCommentStart { video := some { videoId := "v1" }, isAuthenticated := true }
        { newComment := " Hello " } =
      ({ newComment := " Hello ", submitting := true },
        some { videoId := "v1", text := "Hello" }) ∧
    ({ newComment := " Hello ", submitting := true } : State).comments =
      ({ newComment := " Hello " } : State).comments :=
  ⟨by decide,
    (submit_adds_on_confirmation
      { video := some { videoId := "v1" }, isAuthenticated := true }
      { newComment := " Hello " } { newComment := " Hello ", submitting := true }
      { videoId := "v1", text := "Hello" } (by decide)).1⟩

/-- A comment that the sort order does not place after any element of the
array is the first element of the sorted array it is prepended to. -/
theorem arraySort_cons_head {α : Type} (comparefn : α → α → Option Int) (c : α) (l : List α)
    (h : ∀ x ∈ l, sortCompare comparefn c x ≤ 0) :
    (arraySort comparefn (c :: l)).head? = some c := by
  simp only [arraySort, List.insertionSort]
  cases hl : List.insertionSort (sortLE comparefn) l with
  | nil => simp
  | cons b t =>
    have hb : b ∈ l := by
      rw [← List.mem_insertionSort (sortLE comparefn), hl]
      exact List.mem_cons_self b t
    have hcb : sortLE comparefn c b := h b hb
    simp [List.orderedInsert, hcb]

/-- C9, what fails: with key `oldest`, after a confirmed submit the new
comment is first in the cache but last in the displayed list. -/
theorem submit_display_counterexample :
    (handleSubmitCommentResolve (.ok (some { _id := "c2", createdAt := .at 2 }))
        { comments := [{ _id := "c1", createdAt := .at 1 }], sortBy := "oldest" }).comments =
      [{ _id := "c2", createdAt := .at 2 }, { _id := "c1", createdAt := .at 1 }] ∧
    sortedComments
        (handleSubmitCommentResolve (.ok (some { _id := "c2", createdAt := .at 2 }))
          { comments := [{ _id := "c1", createdAt := .at 1 }], sortBy := "oldest" }) =
      [{ _id := "c1", createdAt := .at 1 }, { _id := "c2", createdAt := .at 2 }] := by
  decide

/-- C9, amended. For every cache and every sort key, after a submit is
confirmed the new comment is the first entry of the cache, followed by the
previously cached entries in their prior storage order; the displayed list
is the sort of that cache, a rearrangement of it, and the new comment is its
first entry when the comparator of the current key does not place it after
any previously cached entry. -/
theorem submit_prepends (s : State) (c : Comment) :
    (handleSubmitCommentResolve (.ok (some c)) s).comments = c :: s.comments ∧
    sortedComments (handleSubmitCommentResolve (.ok (some c)) s) =
      sortComments s.sortBy (some (c :: s.comments)) ∧
    (sortedComments (handleSubmitCommentResolve (.ok (some c)) s)).Perm (c :: s.comments) ∧
    ((∀ x ∈ s.comments, sortCompare (compareComments s.sortBy) c x ≤ 0) →
      (sortedComments (handleSubmitCommentResolve (.ok (some c)) s)).head? = some c) := by
  refine ⟨rfl, rfl, ?_, ?_⟩
  · exact List.perm_insertionSort _ _
  · intro h
    exact arraySort_cons_head _ c s.comments h

/-- Witness of C9, amended: at the state where the claim fails (key `oldest`,
a new comment later than the cached one) the new comment is first in the
cache; with key `newest` it is also first in the displayed list. -/
theorem submit_prepends_witness :
    (handleSubmitCommentResolve (.ok (some { _id := "c2", createdAt := .at 2 }))
        { comments := [{ _id := "c1", createdAt := .at 1 }], sortBy := "oldest" }).comments =
      [{ _id := "c2", createdAt := .at 2 }, { _id := "c1", createdAt := .at 1 }] ∧
    (sortedComments (handleSubmitCommentResolve (.ok (some { _id := "c2", createdAt := .at 2 }))
      { comments := [{ _id := "c1", createdAt := .at 1 }] })).head? =
        some { _id := "c2", createdAt := .at 2 } :=
  ⟨(submit_prepends { comments := [{ _id := "c1", createdAt := .at 1 }], sortBy := "oldest" }
      { _id := "c2", createdAt := .at 2 }).1,
    (submit_prepends { comments := [{ _id := "c1", createdAt := .at 1 }] }
      { _id := "c2", createdAt := .at 2 }).2.2.2 (by decide)⟩

/-- C10. For every cache and every accepted submit whose create request
fails (`addComment` throws), the cache after `handleSubmitComment` is the
cache before the trigger, the submitting flag is false, and one alert has
been shown; the continuation alone likewise leaves the cache it finds. -/
theorem submit_failure_keeps_cache (env : Env) (s s₁ : State) (req : CreateRequest)
    (r : FetchResult Comment) (e : String)
    (hstart : handleSubmitCommentStart env s = (s₁, some req))
    (hfail : addComment r = .error e) :
    (handleSubmitComment env r s).comments = s.comments ∧
    (handleSubmitComment env r s).submitting = false ∧
    (handleSubmitComment env r s).alerts =
      s.alerts ++ ["Failed to add comment. Please try again."] ∧
    ∀ s₂ : State, (handleSubmitCommentResolve (addComment r) s₂).comments = s₂.comments ∧
      (handleSubmitCommentResolve (addComment r) s₂).submitting = false := by
  have hs₁ : s₁ = { s with submitting := true } := by
    unfold handleSubmitCommentStart at hstart
    split at hstart
    · cases hstart
    · split at hstart
      · cases hstart
      · cases hstart
        rfl
  subst hs₁
  have hrun : handleSubmitComment env r s =
      handleSubmitCommentResolve (.error e) { s with submitting := true } := by
    simp only [handleSubmitComment, hstart, hfail]
  rw [hrun, hfail]
  exact ⟨rfl, rfl, rfl, fun _ => ⟨rfl, rfl⟩⟩

/-- Witness of C10: the create request is rejected by the transport. -/
theorem submit_failure_keeps_cache_witness :
    handleSubmitCommentStart { video := some { videoId := "v1" }, isAuthenticated := true }
        { comments := [{ _id := "c1" }], newComment := "Hello" } =
      ({ comments := [{ _id := "c1" }], newComment := "Hello", submitting := true },
        some { videoId := "v1", text := "Hello" }) ∧
    addComment (.rejected "Failed to fetch") = .error "Failed to fetch" ∧
    (handleSubmitComment { video := some { videoId := "v1" }, isAuthenticated := true }
        (.rejected "Failed to fetch")
        { comments := [{ _id := "c1" }], newComment := "Hello" }).comments =
      [{ _id := "c1" }] :=
  ⟨by decide, rfl,
    (submit_failure_keeps_cache
      { video := some { videoId := "v1" }, isAuthenticated := true }
      { comments := [{ _id := "c1" }], newComment := "Hello" }
      { comments := [{ _id := "c1" }], newComment := "Hello", submitting := true }
      { videoId := "v1", text := "Hello" } (.rejected "Failed to fetch") "Failed to fetch"
      (by decide) rfl).1⟩

/-! ## Properties of edit, delete and like -/

/-- The cache after an edit that the server confirmed. -/
theorem comments_edit_confirmed (commentId editText : String) (u : Comment) (s : State) :
    (handleEditCommentResolve commentId editText (.ok (some u)) s).comments =
      s.comments.map fun comment =>
        if comment._id = commentId then { comment with text := jsTrim editText, isEdited := true }
        else comment :=
  rfl

/-- A list and its image under a function that rewrites the entries of one id
are related entry by entry. -/
theorem forall₂_map_edit (commentId : String) (f : Comment → Comment) (l : List Comment) :
    List.Forall₂
      (fun c c' => (c._id = commentId → c' = f c) ∧ (c._id ≠ commentId → c' = c))
      l (l.map fun c => if c._id = commentId then f c else c) := by
  induction l with
  | nil => exact List.Forall₂.nil
  | cons a l ih =>
    refine List.Forall₂.cons ⟨?_, ?_⟩ ih
    · intro h; simp [h]
    · intro h; simp [h]

/-- Mapping leaves a list as it is when the function rewrites only entries of
an id that no entry carries. -/
theorem map_edit_of_not_mem (commentId : String) (f : Comment → Comment) (l : List Comment)
    (h : commentId ∉ l.map fun c => c._id) :
    (l.map fun c => if c._id = commentId then f c else c) = l := by
  induction l with
  | nil => rfl
  | cons a l ih =>
    simp only [List.map_cons, List.mem_cons, not_or] at h
    have ha : ¬ a._id = commentId := fun e => h.1 e.symm
    simp only [List.map_cons, ha, if_false, ih h.2]

/-- C11. For every cache, id and non-blank edit text, an edit that the
server confirms yields a cache related to the prior one entry by entry (so
of the same length and order): an entry with that id has the trimmed text and
the edited flag set, every other entry is unchanged; the ids are as before,
and when no entry has the id the cache is unchanged. -/
theorem confirmed_edit_updates_entries (s : State) (commentId : String)
    (r : FetchResult Comment) (u : Comment)
    (hblank : jsTrim s.editText ≠ "") (hconf : updateComment r = .ok (some u)) :
    List.Forall₂
      (fun c c' =>
        (c._id = commentId → c' = { c with text := jsTrim s.editText, isEdited := true }) ∧
        (c._id ≠ commentId → c' = c))
      s.comments (handleEditComment commentId r s).comments ∧
    (handleEditComment commentId r s).comments.length = s.comments.length ∧
    cacheIds (handleEditComment commentId r s) = cacheIds s ∧
    (commentId ∉ cacheIds s → (handleEditComment commentId r s).comments = s.comments) := by
  have hrun : handleEditComment commentId r s =
      handleEditCommentResolve commentId s.editText (.ok (some u)) s := by
    simp only [handleEditComment, handleEditCommentStart, hblank, if_false, hconf]
  rw [hrun]
  refine ⟨?_, ?_, cacheIds_edit _ _ _ _, ?_⟩
  · rw [comments_edit_confirmed]
    exact forall₂_map_edit commentId _ s.comments
  · rw [comments_edit_confirmed, List.length_map]
  · intro h
    rw [comments_edit_confirmed]
    exact map_edit_of_not_mem commentId _ s.comments h

/-- Witness of C11: the second of two comments is edited. -/
theorem confirmed_edit_updates_entries_witness :
    jsTrim ({ editText := " Updated ",
              comments := [{ _id := "c1", text := "one" }, { _id := "c2", text := "two" }] } :
      State).editText ≠ "" ∧
    updateComment (.response true 200 (.object true (some { _id := "c2", text := "Updated" }) "")) =
      .ok (some { _id := "c2", text := "Updated" }) ∧
    (handleEditComment "c2"
        (.response true 200 (.object true (some { _id := "c2", text := "Updated" }) ""))
        { editText := " Updated ",
          comments := [{ _id := "c1", text := "one" }, { _id := "c2", text := "two" }] }
      ).comments.length = 2 :=
  ⟨by decide, rfl,
    (confirmed_edit_updates_entries
      { editText := " Updated ",
        comments := [{ _id := "c1", text := "one" }, { _id := "c2", text := "two" }] } "c2"
      (.response true 200 (.object true (some { _id := "c2", text := "Updated" }) ""))
      { _id := "c2", text := "Updated" } (by decide) rfl).2.1⟩

/-- The cache after a delete that the server confirmed. -/
theorem comments_delete_confirmed (commentId : String) (b : Bool) (s : State) :
    (handleDeleteCommentResolve commentId (.ok b) s).comments =
      s.comments.filter fun comment => comment._id != commentId :=
  rfl

/-- The entries of an id that occurs in a list of pairwise distinct ids are
exactly one. -/
theorem countP_id_eq_one (commentId : String) (l : List Comment)
    (hnd : (l.map fun c => c._id).Nodup) (hmem : commentId ∈ l.map fun c => c._id) :
    l.countP (fun c => c._id == commentId) = 1 := by
  have h := List.count_eq_one_of_mem hnd hmem
  rw [List.count, List.countP_map] at h
  rw [← h]
  apply List.countP_congr
  intro c _
  simp [Function.comp]

/-- C12. For every cache and id, a delete that the server confirms yields
the prior cache without the entries of that id: what is left is a sublist of
the prior cache (relative order kept), holds no entry of the id and every
entry of another id, and is shorter by the number of entries of the id; when
no entry has the id the cache is unchanged, and a cache of 5 distinct ids
that contains the id becomes a cache of 4 entries without it. -/
theorem confirmed_delete_removes_entries (s : State) (commentId : String)
    (r : FetchResult Unit) (b : Bool) (hconf : deleteComment r = .ok b) :
    (handleDeleteComment true commentId r s).comments.Sublist s.comments ∧
    (∀ c ∈ (handleDeleteComment true commentId r s).comments, c._id ≠ commentId) ∧
    (∀ c ∈ s.comments, c._id ≠ commentId →
      c ∈ (handleDeleteComment true commentId r s).comments) ∧
    (handleDeleteComment true commentId r s).comments.length +
        s.comments.countP (fun c => c._id == commentId) = s.comments.length ∧
    (commentId ∉ cacheIds s → (handleDeleteComment true commentId r s).comments = s.comments) ∧
    ((cacheIds s).Nodup → s.comments.length = 5 → commentId ∈ cacheIds s →
      (handleDeleteComment true commentId r s).comments.length = 4 ∧
      commentId ∉ cacheIds (handleDeleteComment true commentId r s)) := by
  have hrun : handleDeleteComment true commentId r s =
      handleDeleteCommentResolve commentId (.ok b) s := by
    simp [handleDeleteComment, handleDeleteCommentStart, hconf]
  have hlen : (s.comments.filter fun c => c._id != commentId).length +
      s.comments.countP (fun c => c._id == commentId) = s.comments.length := by
    have h := List.length_eq_countP_add_countP (fun c : Comment => c._id == commentId) s.comments
    rw [List.countP_eq_length_filter (fun c : Comment => ¬ (c._id == commentId) = true)] at h
    rw [h, Nat.add_comm]
    congr 2
    apply List.filter_congr
    intro c _
    cases hc : (c._id == commentId) <;> simp [bne, hc]
  have hnot : ∀ c ∈ s.comments.filter (fun c => c._id != commentId), c._id ≠ commentId := by
    intro c hc
    simpa using (List.mem_filter.1 hc).2
  rw [hrun, comments_delete_confirmed]
  refine ⟨List.filter_sublist _, hnot, ?_, hlen, ?_, ?_⟩
  · intro c hc hne
    exact List.mem_filter.2 ⟨hc, by simpa using hne⟩
  · intro h
    apply List.filter_eq_self.2
    intro c hc
    have : c._id ≠ commentId := by
      intro e
      exact h (List.mem_map.2 ⟨c, hc, e⟩)
    simpa using this
  · intro hnd h5 hmem
    have h1 := countP_id_eq_one commentId s.comments hnd hmem
    constructor
    · omega
    · intro hin
      obtain ⟨c, hc, e⟩ := List.mem_map.1 hin
      exact hnot c hc e

/-- Witness of C12: the comment at position 2 of 5 is deleted. -/
theorem confirmed_delete_removes_entries_witness :
    deleteComment (.response true 200 (.object true none "")) = .ok true ∧
    (handleDeleteComment true "c1" (.response true 200 (.object true none ""))
        { comments := [{ _id := "c0" }, { _id := "c1" }, { _id := "c2" }, { _id := "c3" },
          { _id := "c4" }] }).comments.length +
      List.countP (fun c => c._id == "c1")
        ([{ _id := "c0" }, { _id := "c1" }, { _id := "c2" }, { _id := "c3" },
          { _id := "c4" }] : List Comment) = 5 :=
  ⟨rfl,
    (confirmed_delete_removes_entries
      { comments := [{ _id := "c0" }, { _id := "c1" }, { _id := "c2" }, { _id := "c3" },
        { _id := "c4" }] } "c1" (.response true 200 (.object true none "")) true rfl).2.2.2.1⟩

/-- C13. For every cache, when the remote call of a comment edit, of a
comment delete or of a comment like fails, the cache after the handler is
the cache before the trigger, entry by entry: texts, edited flags, positions,
like counts and liked flags are as before. -/
theorem failed_call_keeps_cache (s : State) (env : Env) (confirmed : Bool) (commentId : String)
    (r₁ : FetchResult Comment) (r₂ : FetchResult Unit) (r₃ : FetchResult LikeResult)
    (e₁ e₂ e₃ : String)
    (h₁ : updateComment r₁ = .error e₁) (h₂ : deleteComment r₂ = .error e₂)
    (h₃ : likeComment r₃ = .error e₃) :
    (handleEditComment commentId r₁ s).comments = s.comments ∧
    (handleDeleteComment confirmed commentId r₂ s).comments = s.comments ∧
    (handleLikeComment env commentId r₃ s).comments = s.comments := by
  refine ⟨?_, ?_, ?_⟩
  · by_cases h : jsTrim s.editText = "" <;>
      simp [handleEditComment, handleEditCommentStart, h, h₁, handleEditCommentResolve]
  · cases confirmed <;>
      simp [handleDeleteComment, handleDeleteCommentStart, h₂, handleDeleteCommentResolve]
  · cases h : env.isAuthenticated <;>
      simp [handleLikeComment, handleLikeCommentStart, h, h₃, handleLikeCommentResolve]

/-- Witness of C13: the three calls are rejected by the transport. -/
theorem failed_call_keeps_cache_witness :
    updateComment (.rejected "Failed to fetch") = .error "Failed to fetch" ∧
    deleteComment (.rejected "Failed to fetch") = .error "Failed to fetch" ∧
    likeComment (.rejected "Failed to fetch") = .error "Failed to fetch" ∧
    (handleEditComment "c1" (.rejected "Failed to fetch")
      { comments := [{ _id := "c1", text := "one" }], editText := "Updated" }).comments =
        [{ _id := "c1", text := "one" }] :=
  ⟨rfl, rfl, rfl,
    (failed_call_keeps_cache
      { comments := [{ _id := "c1", text := "one" }], editText := "Updated" }
      { isAuthenticated := true } true "c1" (.rejected "Failed to fetch")
      (.rejected "Failed to fetch") (.rejected "Failed to fetch")
      "Failed to fetch" "Failed to fetch" "Failed to fetch" rfl rfl rfl).1⟩

/-! ## Properties of the requests in flight -/

/-- C15. While the submitting flag is set, a further call of
`handleSubmitComment` issues no create request and leaves the whole state,
with it the cache, the input text and the submitting flag, unchanged; on the
mounted component nothing is added to the requests in flight. -/
theorem second_submit_ignored (sys : Sys) (r : FetchResult Comment)
    (h : sys.ui.submitting = true) :
    handleSubmitCommentStart sys.env sys.ui = (sys.ui, none) ∧
    handleSubmitComment sys.env r sys.ui = sys.ui ∧
    Sys.submit sys = sys := by
  have hstart : handleSubmitCommentStart sys.env sys.ui = (sys.ui, none) := by
    simp [handleSubmitCommentStart, h]
  refine ⟨hstart, ?_, ?_⟩
  · simp only [handleSubmitComment, hstart]
  · simp only [Sys.submit, hstart]
    split
    · rfl
    · simp

/-- Witness of C15: a second click while the first create request is in
flight. -/
theorem second_submit_ignored_witness :
    (Sys.submit
        { env := { video := some { videoId := "v1" }, isAuthenticated := true },
          ui := { newComment := "Hello" } }).ui.submitting = true ∧
    Sys.submit (Sys.submit
        { env := { video := some { videoId := "v1" }, isAuthenticated := true },
          ui := { newComment := "Hello" } }) =
      Sys.submit
        { env := { video := some { videoId := "v1" }, isAuthenticated := true },
          ui := { newComment := "Hello" } } :=
  ⟨by decide,
    (second_submit_ignored
      (Sys.submit
        { env := { video := some { videoId := "v1" }, isAuthenticated := true },
          ui := { newComment := "Hello" } })
      (.rejected "") (by decide)).2.2⟩

/-- C16, what fails: a second like trigger while the first like request is
awaiting the server issues a second request, and when both resolve the
result of the second is what the cache shows. -/
theorem second_like_counterexample :
    (Sys.like "c1" (Sys.like "c1"
        { env := { video := some { videoId := "v1" }, isAuthenticated := true },
          ui := { comments := [{ _id := "c1" }] } })).inFlight =
      [Pending.like "c1", Pending.like "c1"] ∧
    (Sys.resolve 0
        (.like (.response true 200
          (.object true (some { likeCount := some 0, isLiked := some false }) "")))
        (Sys.resolve 0
          (.like (.response true 200
            (.object true (some { likeCount := some 1, isLiked := some true }) "")))
          (Sys.like "c1" (Sys.like "c1"
            { env := { video := some { videoId := "v1" }, isAuthenticated := true },
              ui := { comments := [{ _id := "c1" }] } })))).ui.comments =
      [{ _id := "c1", likeCount := some 0, isLiked := some false }] := by
  decide

/-- C16, amended. For edit, delete and comment-like there is no Pending
guard: on the mounted component every trigger that passes the guard of its
own handler (non-blank edit text for an edit, a confirmed dialog for a
delete, a signed-in viewer for a like) adds a request to those in flight,
whatever is in flight already, and the trigger itself leaves the state, with
it the cache, unchanged. -/
theorem trigger_always_issues (sys : Sys) (commentId : String) (hm : sys.mounted = true) :
    (jsTrim sys.ui.editText ≠ "" →
      (Sys.edit commentId sys).inFlight =
        sys.inFlight ++ [Pending.update commentId (jsTrim sys.ui.editText) sys.ui.editText]) ∧
    (Sys.delete true commentId sys).inFlight = sys.inFlight ++ [Pending.delete commentId] ∧
    (sys.env.isAuthenticated = true →
      (Sys.like commentId sys).inFlight = sys.inFlight ++ [Pending.like commentId]) ∧
    (Sys.edit commentId sys).ui = sys.ui ∧
    (∀ confirmed, (Sys.delete confirmed commentId sys).ui = sys.ui) ∧
    (Sys.like commentId sys).ui = sys.ui := by
  refine ⟨?_, ?_, ?_, ?_, ?_, ?_⟩
  · intro hblank
    simp [Sys.edit, handleEditCommentStart, hm, hblank]
  · simp [Sys.delete, handleDeleteCommentStart, hm]
  · intro hauth
    simp [Sys.like, handleLikeCommentStart, hm, hauth]
  · by_cases hblank : jsTrim sys.ui.editText = "" <;>
      simp [Sys.edit, handleEditCommentStart, hm, hblank]
  · intro confirmed
    cases confirmed <;> simp [Sys.delete, handleDeleteCommentStart, hm]
  · cases hauth : sys.env.isAuthenticated <;>
      simp [Sys.like, handleLikeCommentStart, hm, hauth]

/-- Witness of C16, amended: a second like is triggered while the first like
is in flight, with no edit in progress. -/
theorem trigger_always_issues_witness :
    (Sys.like "c1"
      { env := { video := some { videoId := "v1" }, isAuthenticated := true },
        ui := { comments := [{ _id := "c1" }] } }).mounted = true ∧
    (Sys.like "c1" (Sys.like "c1"
      { env := { video := some { videoId := "v1" }, isAuthenticated := true },
        ui := { comments := [{ _id := "c1" }] } })).inFlight =
      (Sys.like "c1"
        { env := { video := some { videoId := "v1" }, isAuthenticated := true },
          ui := { comments := [{ _id := "c1" }] } }).inFlight ++ [Pending.like "c1"] :=
  ⟨by decide,
    (trigger_always_issues
      (Sys.like "c1"
        { env := { video := some { videoId := "v1" }, isAuthenticated := true },
          ui := { comments := [{ _id := "c1" }] } })
      "c1" (by decide)).2.2.1 (by decide)⟩

/-- A tick leaves the intervals as they are. -/
theorem timers_tick (k : Nat) (sys : Sys) : (Sys.tick k sys).timers = sys.timers := by
  unfold Sys.tick
  split <;> rfl

/-- A tick of an interval whose props carry a video id adds one interval
fetch to those in flight. -/
theorem pollsInFlight_tick (k : Nat) (sys : Sys) (tenv : Env)
    (ht : sys.timers[k]? = some tenv) (hv : noVideoId tenv = false) :
    (Sys.tick k sys).pollsInFlight = sys.pollsInFlight + 1 := by
  have hstart : ∃ videoId, pollTickStart tenv sys.ui = (sys.ui, some videoId) := by
    unfold pollTickStart
    cases hvideo : tenv.video with
    | none => simp [noVideoId, hvideo] at hv
    | some v => exact ⟨videoIdOf v, by simp [hv]⟩
  obtain ⟨videoId, hs⟩ := hstart
  simp [Sys.tick, ht, hs, Sys.pollsInFlight, List.countP_append, Pending.isPoll]

/-- C17, what fails: a second tick that fires while the fetch of the first
has not resolved starts a second fetch; two interval fetches are in flight. -/
theorem poll_overlap_counterexample :
    (Sys.tick 0 (Sys.tick 0 (Sys.mount { video := some { videoId := "v1" } }))).inFlight =
      [Pending.load "v1", Pending.poll "v1", Pending.poll "v1"] ∧
    (Sys.tick 0 (Sys.tick 0 (Sys.mount { video := some { videoId := "v1" } }))).pollsInFlight =
      2 := by
  decide

/-- C17, amended. The interval callback has no overlap guard: every tick of
an active interval whose props carry a video id starts a new fetch and leaves
the state unchanged, whether or not earlier fetches have resolved; `n` ticks
with no resolution in between leave `n` more interval fetches in flight. -/
theorem tick_always_fetches (sys : Sys) (k : Nat) (tenv : Env)
    (ht : sys.timers[k]? = some tenv) (hv : noVideoId tenv = false) :
    (Sys.tick k sys).pollsInFlight = sys.pollsInFlight + 1 ∧
    (Sys.tick k sys).ui = sys.ui ∧
    ∀ n : Nat, ((Sys.tick k)^[n] sys).pollsInFlight = sys.pollsInFlight + n := by
  refine ⟨pollsInFlight_tick k sys tenv ht hv, ?_, ?_⟩
  · unfold Sys.tick
    rw [ht]
    cases hvideo : tenv.video with
    | none => simp [noVideoId, hvideo] at hv
    | some v => simp [pollTickStart, hvideo, hv]
  · intro n
    induction n generalizing sys with
    | zero => rfl
    | succ n ih =>
      rw [Function.iterate_succ_apply]
      have ht1 : (Sys.tick k sys).timers[k]? = some tenv := by rw [timers_tick, ht]
      rw [ih (Sys.tick k sys) ht1, pollsInFlight_tick k sys tenv ht hv]
      omega

/-- Witness of C17, amended: a tick on the freshly mounted component. -/
theorem tick_always_fetches_witness :
    (Sys.mount { video := some { videoId := "v1" } }).timers[0]? =
      some { video := some { videoId := "v1" } } ∧
    noVideoId { video := some { videoId := "v1" } } = false ∧
    (Sys.tick 0 (Sys.mount { video := some { videoId := "v1" } })).pollsInFlight =
      (Sys.mount { video := some { videoId := "v1" } }).pollsInFlight + 1 :=
  ⟨by decide, by decide,
    (tick_always_fetches (Sys.mount { video := some { videoId := "v1" } }) 0
      { video := some { videoId := "v1" } } (by decide) (by decide)).1⟩

/-- C18, what fails: the view switches from video `v1` to video `v2` while
the load for `v1` is in flight; the load for `v2` resolves and fills the
cache, then the load for `v1` resolves and replaces the cache with the
comments of `v1`. -/
theorem late_fetch_counterexample :
    (Sys.setProps { video := some { videoId := "v2" } }
        (Sys.mount { video := some { videoId := "v1" } })).inFlight =
      [Pending.load "v1", Pending.load "v2"] ∧
    (Sys.resolve 1 (.comments (.response true 200 (.object true (some [{ _id := "b" }]) "")))
        (Sys.setProps { video := some { videoId := "v2" } }
          (Sys.mount { video := some { videoId := "v1" } }))).ui.comments = [{ _id := "b" }] ∧
    (Sys.resolve 0 (.comments (.response true 200 (.object true (some [{ _id := "a" }]) "")))
        (Sys.resolve 1 (.comments (.response true 200 (.object true (some [{ _id := "b" }]) "")))
          (Sys.setProps { video := some { videoId := "v2" } }
            (Sys.mount { video := some { videoId := "v1" } })))).ui.comments =
      [{ _id := "a" }] := by
  decide

/-- The continuation of a load or of an interval fetch replaces the cache. -/
theorem resume_fetch_comments (p : Pending) (videoId : String)
    (hp : p = Pending.load videoId ∨ p = Pending.poll videoId)
    (r : FetchResult (List Comment)) :
    ∃ f, p.resume (.comments r) = some f ∧
      (∀ s, (f s).comments = orEmpty (getVideoComments r)) ∧ ∀ s, (f s).alerts = s.alerts := by
  rcases hp with rfl | rfl
  · exact ⟨loadCommentsResolve r, rfl, fun _ => rfl, fun _ => rfl⟩
  · exact ⟨pollTickResolve r, rfl, fun _ => rfl, fun _ => rfl⟩

/-- C18, amended. After the view switches to another video or unmounts, the
interval of the previous view is cleared: no interval is active after an
unmount, so a tick changes nothing, and after a switch the only active
interval is the one of the new props. A load or interval fetch started for
the previous video that resolves after the unmount does not change the
cache; one that resolves after the switch replaces the cache with the list it
returned. -/
theorem previous_view_cleanup (sys : Sys) (env : Env) (k : Nat) (videoId : String)
    (r : FetchResult (List Comment))
    (hm : sys.mounted = true) (hdeps : effectDeps env ≠ effectDeps sys.env)
    (hk : sys.inFlight[k]? = some (Pending.load videoId) ∨
      sys.inFlight[k]? = some (Pending.poll videoId)) :
    (Sys.unmount sys).timers = [] ∧
    (∀ j, Sys.tick j (Sys.unmount sys) = Sys.unmount sys) ∧
    (Sys.setProps env sys).timers = [env] ∧
    (Sys.resolve k (.comments r) (Sys.unmount sys)).ui.comments = sys.ui.comments ∧
    (Sys.resolve k (.comments r) (Sys.setProps env sys)).ui.comments =
      orEmpty (getVideoComments r) := by
  have hlt : k < sys.inFlight.length := by
    by_contra hn
    rw [List.getElem?_eq_none (Nat.le_of_not_lt hn)] at hk
    rcases hk with h | h <;> cases h
  obtain ⟨p, hp, hkind⟩ : ∃ p, sys.inFlight[k]? = some p ∧
      (p = Pending.load videoId ∨ p = Pending.poll videoId) := by
    rcases hk with h | h
    · exact ⟨_, h, Or.inl rfl⟩
    · exact ⟨_, h, Or.inr rfl⟩
  obtain ⟨f, hf, hcomments, halerts⟩ := resume_fetch_comments p videoId hkind r
  refine ⟨rfl, ?_, ?_, ?_, ?_⟩
  · intro j
    simp [Sys.tick, Sys.unmount]
  · simp [Sys.setProps, hm, hdeps]
  · simp [Sys.resolve, Sys.unmount, hp, hf]
  · have hp2 : (Sys.setProps env sys).inFlight[k]? = some p := by
      simp only [Sys.setProps, hm, hdeps, Bool.not_true, Bool.false_eq_true, if_false]
      rw [List.getElem?_append_left hlt, hp]
    have hm2 : (Sys.setProps env sys).mounted = true := by
      simp [Sys.setProps, hm, hdeps]
    simp only [Sys.resolve, hp2, hf, hm2, if_true, hcomments]

/-- Witness of C18, amended: the view switches from `v1` to `v2` while the
load for `v1` is in flight. -/
theorem previous_view_cleanup_witness :
    (Sys.mount { video := some { videoId := "v1" } }).mounted = true ∧
    effectDeps { video := some { videoId := "v2" } } ≠
      effectDeps (Sys.mount { video := some { videoId := "v1" } }).env ∧
    (Sys.mount { video := some { videoId := "v1" } }).inFlight[0]? = some (Pending.load "v1") ∧
    (Sys.setProps { video := some { videoId := "v2" } }
      (Sys.mount { video := some { videoId := "v1" } })).timers =
        [{ video := some { videoId := "v2" } }] :=
  ⟨by decide, by decide, by decide,
    (previous_view_cleanup (Sys.mount { video := some { videoId := "v1" } })
      { video := some { videoId := "v2" } } 0 "v1" (.rejected "") (by decide) (by decide)
      (Or.inl (by decide))).2.2.1⟩

end CommentSection

namespace VideoPage

/-! ## Properties of the like and dislike buttons -/

/-- C14, the code at the failing input: a signed-in viewer who had liked the
video clicks like and the call fails; the liked flag ends `false`, not the
prior `true`. With a prior dislike, a failing like leaves the disliked flag
cleared. The same holds of `handleDislike` with the flags exchanged. -/
theorem failed_like_does_not_restore :
    handleLike true (some (.error "Network Error")) { liked := true, disliked := false } =
      { liked := false, disliked := false, loading := false } ∧
    handleLike true (some (.error "Network Error")) { liked := false, disliked := true } =
      { liked := false, disliked := false, loading := false } ∧
    handleDislike true (some (.error "Network Error")) { liked := false, disliked := true } =
      { liked := false, disliked := false, loading := false } ∧
    handleDislike true (some (.error "Network Error")) { liked := true, disliked := false } =
      { liked := false, disliked := false, loading := false } := by
  decide

end VideoPage

namespace Api

open Browser CommentSection

/-! ## Properties of the stored session and of the Authorization header -/

/-- Reading a key after an entry removal: the removed key is absent, every
other key reads as before. -/
theorem getItem_removeItem (storage : Storage) (removed key : String) :
    (storage.removeItem removed).getItem key =
      if key = removed then none else storage.getItem key := by
  induction storage with
  | nil => simp [Storage.removeItem, Storage.getItem]
  | cons entry rest ih =>
    obtain ⟨k, v⟩ := entry
    simp only [Storage.removeItem, Storage.getItem] at ih ⊢
    by_cases hk : k = removed
    · subst hk
      by_cases hkey : key = k
      · subst hkey
        simpa [List.filter_cons] using ih
      · have hne : (key == k) = false := by simpa using hkey
        simpa [List.filter_cons, List.lookup_cons, hne, hkey] using ih
    · have hkeep : (k != removed) = true := by simpa using hk
      by_cases hkey : key = k
      · subst hkey
        simp [List.filter_cons, hkeep, List.lookup_cons, hk]
      · have hne : (key == k) = false := by simpa using hkey
        simp only [List.filter_cons, hkeep, if_true, List.lookup_cons, hne]
        exact ih

/-- Reading a header right after it was assigned. -/
theorem header_setHeader (headers : List (String × String)) (name value : String) :
    header (setHeader headers name value) name = some value := by
  induction headers with
  | nil => simp [header, setHeader, List.lookup_cons]
  | cons h rest ih =>
    obtain ⟨k, v⟩ := h
    simp only [header, setHeader] at ih ⊢
    by_cases hk : k = name
    · subst hk
      simpa [List.filter_cons] using ih
    · have hkeep : (k != name) = true := by simpa using hk
      have hne : (name == k) = false := by simpa using fun e : name = k => hk e.symm
      simp only [List.filter_cons, hkeep, if_true, List.cons_append, List.lookup_cons, hne]
      exact ih

/-- C19, what fails: a response of status 403 to a request made through
`api` leaves the stored token and the stored user in place. -/
theorem forbidden_counterexample :
    responseErrorInterceptor (some 403)
        { storage := [("authToken", "t0k3n"), ("user", "ann")], href := "/" } =
      { storage := [("authToken", "t0k3n"), ("user", "ann")], href := "/" } ∧
    Storage.getItem [("authToken", "t0k3n"), ("user", "ann")] "authToken" = some "t0k3n" := by
  decide

/-- C19, amended. For every request made through the axios instance `api`
whose response has status 401, the stored token and the stored user are both
removed and the page is sent to `/login`; a failed response of any other
status, 403 included, leaves the page as it is, and so does every call of
the fetch-based `commentAPI`, whatever the server answers. -/
theorem unauthorized_clears_session (page : Page) (status : Option Nat)
    (hstatus : status ≠ some 401) :
    (responseErrorInterceptor (some 401) page).storage.getItem "authToken" = none ∧
    (responseErrorInterceptor (some 401) page).storage.getItem "user" = none ∧
    (responseErrorInterceptor (some 401) page).href = "/login" ∧
    responseErrorInterceptor status page = page ∧
    (∀ server videoId, (getVideoCommentsCall server videoId page).2 = page) ∧
    (∀ server videoId text, (addCommentCall server videoId text page).2 = page) ∧
    (∀ server commentId newText, (updateCommentCall server commentId newText page).2 = page) ∧
    (∀ server commentId, (deleteCommentCall server commentId page).2 = page) ∧
    (∀ server commentId, (likeCommentCall server commentId page).2 = page) := by
  refine ⟨?_, ?_, ?_, ?_, fun _ _ => rfl, fun _ _ _ => rfl, fun _ _ _ => rfl, fun _ _ => rfl,
    fun _ _ => rfl⟩
  · simp only [responseErrorInterceptor, if_true]
    rw [getItem_removeItem, getItem_removeItem]
    simp
  · simp only [responseErrorInterceptor, if_true]
    rw [getItem_removeItem]
    simp
  · simp [responseErrorInterceptor]
  · simp [responseErrorInterceptor, hstatus]

/-- Witness of C19, amended: a 403 response on a page with a stored session. -/
theorem unauthorized_clears_session_witness :
    (some 403 : Option Nat) ≠ some 401 ∧
    (responseErrorInterceptor (some 401)
      { storage := [("authToken", "t0k3n"), ("user", "ann")], href := "/" }).storage.getItem
        "authToken" = none :=
  ⟨by decide,
    (unauthorized_clears_session
      { storage := [("authToken", "t0k3n"), ("user", "ann")], href := "/" } (some 403)
      (by decide)).1⟩

/-- C20, what fails: with a token stored, the request of `getVideoComments`
carries no Authorization header; with none stored, the request of
`addComment` carries the header `Bearer null`. -/
theorem authorization_counterexample :
    Storage.getItem [("authToken", "t0k3n")] "authToken" = some "t0k3n" ∧
    header (getVideoCommentsRequest "v1").headers "Authorization" = none ∧
    Storage.getItem [] "authToken" = none ∧
    header (addCommentRequest [] "v1" "Hello").headers "Authorization" = some "Bearer null" := by
  decide

/-- C20, amended. A request made through the axios instance `api` carries
`Authorization: Bearer <token>` when a non-empty token is stored and has its
headers untouched when none is stored. The write calls of `commentAPI` (add,
update, delete, like) always carry an Authorization header: `Bearer <token>`
when a token is stored and `Bearer null` when none is; the request of
`getVideoComments` carries no header at all. -/
theorem authorization_header (storage empty : Storage) (token : String)
    (headers : List (String × String))
    (hstored : storage.getItem "authToken" = some token) (hne : token ≠ "")
    (hnone : empty.getItem "authToken" = none) :
    header (requestInterceptor storage headers) "Authorization" = some ("Bearer " ++ token) ∧
    requestInterceptor empty headers = headers ∧
    (∀ videoId text, header (addCommentRequest storage videoId text).headers "Authorization" =
      some ("Bearer " ++ token)) ∧
    (∀ commentId text,
      header (updateCommentRequest storage commentId text).headers "Authorization" =
        some ("Bearer " ++ token)) ∧
    (∀ commentId, header (deleteCommentRequest storage commentId).headers "Authorization" =
      some ("Bearer " ++ token)) ∧
    (∀ commentId, header (likeCommentRequest storage commentId).headers "Authorization" =
      some ("Bearer " ++ token)) ∧
    (∀ videoId text, header (addCommentRequest empty videoId text).headers "Authorization" =
      some "Bearer null") ∧
    (∀ commentId text,
      header (updateCommentRequest empty commentId text).headers "Authorization" =
        some "Bearer null") ∧
    (∀ commentId, header (deleteCommentRequest empty commentId).headers "Authorization" =
      some "Bearer null") ∧
    (∀ commentId, header (likeCommentRequest empty commentId).headers "Authorization" =
      some "Bearer null") ∧
    ∀ videoId, (getVideoCommentsRequest videoId).headers = [] := by
  have hct : ("Authorization" == "Content-Type") = false := by decide
  refine ⟨?_, ?_, ?_, ?_, ?_, ?_, ?_, ?_, ?_, ?_, fun _ => rfl⟩
  · simp only [requestInterceptor, hstored, hne, if_false]
    exact header_setHeader _ _ _
  · simp only [requestInterceptor, hnone]
  · intro _ _
    simp [header, addCommentRequest, List.lookup_cons, hct, hstored, templateText]
  · intro _ _
    simp [header, updateCommentRequest, List.lookup_cons, hct, hstored, templateText]
  · intro _
    simp [header, deleteCommentRequest, List.lookup_cons, hstored, templateText]
  · intro _
    simp [header, likeCommentRequest, List.lookup_cons, hstored, templateText]
  · intro _ _
    simp [header, addCommentRequest, List.lookup_cons, hct, hnone, templateText]
  · intro _ _
    simp [header, updateCommentRequest, List.lookup_cons, hct, hnone, templateText]
  · intro _
    simp [header, deleteCommentRequest, List.lookup_cons, hnone, templateText]
  · intro _
    simp [header, likeCommentRequest, List.lookup_cons, hnone, templateText]

/-- Witness of C20, amended: one storage with a token and one without. -/
theorem authorization_header_witness :
    Storage.getItem [("authToken", "t0k3n")] "authToken" = some "t0k3n" ∧
    "t0k3n" ≠ "" ∧
    Storage.getItem [] "authToken" = none ∧
    header (requestInterceptor [("authToken", "t0k3n")]
      [("Content-Type", "application/json")]) "Authorization" = some ("Bearer " ++ "t0k3n") :=
  ⟨by decide, by decide, by decide,
    (authorization_header [("authToken", "t0k3n")] [] "t0k3n"
      [("Content-Type", "application/json")] (by decide) (by decide) (by decide)).1⟩

end Api

namespace AuthContext

open Browser

/-! ## Properties of the auth state -/

/-- C21. On load from `initialState`: when the token key and the user key
both hold a non-empty value and the user value parses, the state becomes
authenticated with exactly the parsed user and the stored token, loading
false; when a key is absent or empty, or the user value does not parse, the
state is unauthenticated with user and token null and loading false. -/
theorem loadUser_mirrors_storage (jsonParse : String → Except String (Option User))
    (storage other : Storage) (token userData : String) (user : Option User)
    (htoken : storage.getItem "authToken" = some token) (htne : token ≠ "")
    (hdata : storage.getItem "user" = some userData) (hdne : userData ≠ "")
    (hparse : jsonParse userData = .ok user)
    (hother : ¬ ∃ t d u, other.getItem "authToken" = some t ∧ t ≠ "" ∧
      other.getItem "user" = some d ∧ d ≠ "" ∧ jsonParse d = .ok u) :
    loadUser jsonParse storage initialState =
      { user := user, token := some token, isAuthenticated := true, isLoading := false,
        error := none } ∧
    loadUser jsonParse other initialState =
      { user := none, token := none, isAuthenticated := false, isLoading := false,
        error := none } := by
  constructor
  · simp [loadUser, htoken, hdata, htne, hdne, hparse, authReducer, initialState]
  · unfold loadUser
    split
    · rename_i t d ht hd
      by_cases hcond : (t != "" && d != "") = true
      · simp only [hcond, if_true]
        cases hp : jsonParse d with
        | error e => rfl
        | ok u =>
          exfalso
          simp only [Bool.and_eq_true, bne_iff_ne, ne_eq] at hcond
          exact hother ⟨t, d, u, ht, hcond.1, hd, hcond.2, hp⟩
      · simp only [hcond]
        rfl
    · rfl

/-- Witness of C21: one storage with a session, one without a user. -/
theorem loadUser_mirrors_storage_witness :
    Storage.getItem [("authToken", "t0k3n"), ("user", "ann")] "authToken" = some "t0k3n" ∧
    Storage.getItem [("authToken", "t0k3n"), ("user", "ann")] "user" = some "ann" ∧
    loadUser (fun d => if d = "ann" then .ok (some { fields := [("username", "ann")] })
        else .error "SyntaxError")
      [("authToken", "t0k3n"), ("user", "ann")] initialState =
      { user := some { fields := [("username", "ann")] }, token := some "t0k3n",
        isAuthenticated := true, isLoading := false, error := none } :=
  ⟨by decide, by decide,
    (loadUser_mirrors_storage
      (fun d => if d = "ann" then .ok (some { fields := [("username", "ann")] })
        else .error "SyntaxError")
      [("authToken", "t0k3n"), ("user", "ann")] [("authToken", "t0k3n")] "t0k3n" "ann"
      (some { fields := [("username", "ann")] }) (by decide) (by decide) (by decide)
      (by decide) (by simp)
      (by
        rintro ⟨t, d, u, _, _, hd, _, _⟩
        simp [Storage.getItem, List.lookup] at hd)).1⟩

/-- One dispatch keeps the link between the flag, the token and the user. -/
theorem authReducer_keeps_link (state : AuthState) (action : Action)
    (hok : action.payloadOk)
    (h : (state.isAuthenticated = true ↔ state.token ≠ none) ∧
      (state.isAuthenticated = true → state.user ≠ none)) :
    ((authReducer state action).isAuthenticated = true ↔
        (authReducer state action).token ≠ none) ∧
      ((authReducer state action).isAuthenticated = true →
        (authReducer state action).user ≠ none) := by
  cases action <;> simp_all [authReducer, Action.payloadOk]

/-- C28. In every state reachable from `initialState` through actions whose
success and load payloads carry a user and a token, `isAuthenticated` is true
exactly when the token is non-null, and the user is non-null whenever
`isAuthenticated` is true; an action of unknown type returns the state
unchanged. -/
theorem auth_flag_matches_token (state : AuthState) (h : Reachable state) :
    (state.isAuthenticated = true ↔ state.token ≠ none) ∧
    (state.isAuthenticated = true → state.user ≠ none) ∧
    ∀ (s : AuthState) (type : String), authReducer s (.other type) = s := by
  have key : (state.isAuthenticated = true ↔ state.token ≠ none) ∧
      (state.isAuthenticated = true → state.user ≠ none) := by
    induction h with
    | init => simp [initialState]
    | dispatch action _ hok ih => exact authReducer_keeps_link _ action hok ih
  exact ⟨key.1, key.2, fun _ _ => rfl⟩

/-- Witness of C28: the state after a login and an update of the user. -/
theorem auth_flag_matches_token_witness :
    Reachable (authReducer
      (authReducer initialState
        (.loginSuccess { user := some { fields := [("id", "u1")] }, token := some "t0k3n" }))
      (.updateUser (some { fields := [("avatar", "a.png")] }))) ∧
    ((authReducer
      (authReducer initialState
        (.loginSuccess { user := some { fields := [("id", "u1")] }, token := some "t0k3n" }))
      (.updateUser (some { fields := [("avatar", "a.png")] }))).isAuthenticated = true ↔
    (authReducer
      (authReducer initialState
        (.loginSuccess { user := some { fields := [("id", "u1")] }, token := some "t0k3n" }))
      (.updateUser (some { fields := [("avatar", "a.png")] }))).token ≠ none) :=
  have hr : Reachable (authReducer
      (authReducer initialState
        (.loginSuccess { user := some { fields := [("id", "u1")] }, token := some "t0k3n" }))
      (.updateUser (some { fields := [("avatar", "a.png")] }))) :=
    Reachable.dispatch _
      (Reachable.dispatch _ Reachable.init (by simp [Action.payloadOk])) trivial
  ⟨hr, (auth_flag_matches_token _ hr).1⟩

end AuthContext

namespace VideoPage

/-- C29, the code at the failing input: on the page of `VideoPage.js`, from
`liked = false`, `disliked = false`, a signed-in viewer clicks dislike (the
call succeeds) and then presses the key `l`. The listener still holds the
`handleLike` of the first render, which read `disliked = false`, so it sets
`liked` and leaves `disliked` set: both end true. -/
theorem stale_like_after_dislike :
    (Page.clickDislike true (some (.ok ())) {}).cells =
      { liked := false, disliked := true, loading := false } ∧
    (Page.clickDislike true (some (.ok ())) {}).bound =
      { liked := false, disliked := false, loading := false } ∧
    (Page.pressL true (some (.ok ())) (Page.clickDislike true (some (.ok ())) {})).cells =
      { liked := true, disliked := true, loading := false } := by
  decide

/-- The part of C29 the code keeps: a call of `handleLike` or `handleDislike`
of the current render (every button click, and every call in
`VideoPlayer.js`, which has no keyboard listener) never leaves `liked` and
`disliked` both true, whatever the outcome of the remote call. -/
theorem current_handlers_exclusive (isAuthenticated : Bool)
    (outcome : Option (Except String Unit)) (s : LikeState)
    (h : ¬ (s.liked = true ∧ s.disliked = true)) :
    ¬ ((handleLike isAuthenticated outcome s).liked = true ∧
      (handleLike isAuthenticated outcome s).disliked = true) ∧
    ¬ ((handleDislike isAuthenticated outcome s).liked = true ∧
      (handleDislike isAuthenticated outcome s).disliked = true) := by
  obtain ⟨l, d, ld⟩ := s
  cases isAuthenticated <;> cases l <;> cases d <;>
    rcases outcome with _ | _ | _ <;>
    simp_all [handleLike, handleLikeOf, handleLikeStart, handleLikeResolve, handleDislike,
      handleDislikeOf, handleDislikeStart, handleDislikeResolve]

end VideoPage

namespace CommentSection

/-! ## Properties of comment bodies, of `addComment` and of `canModifyComment` -/

/-- Trimming twice is trimming once, on lists of characters. -/
theorem trim_chars_idempotent (p : Char → Bool) (l : List Char) :
    List.rdropWhile p (List.dropWhile p (List.rdropWhile p (List.dropWhile p l))) =
      List.rdropWhile p (List.dropWhile p l) := by
  have hhead : List.dropWhile p (List.rdropWhile p (List.dropWhile p l)) =
      List.rdropWhile p (List.dropWhile p l) := by
    obtain ⟨k, hk⟩ := List.rdropWhile_prefix (p := p) (l := List.dropWhile p l)
    cases ht : List.rdropWhile p (List.dropWhile p l) with
    | nil => rfl
    | cons a t =>
      rw [ht] at hk
      have hm : List.dropWhile p (List.dropWhile p l) = List.dropWhile p l :=
        List.dropWhile_idempotent p l
      rw [← hk] at hm
      simp only [List.cons_append, List.dropWhile_cons] at hm
      by_cases ha : p a = true
      · simp only [ha, if_true] at hm
        have hlen := congrArg List.length hm
        have hle := (List.dropWhile_suffix (l := t ++ k) p).length_le
        simp only [List.length_cons] at hlen
        omega
      · simp [List.dropWhile_cons, ha]
  rw [hhead, List.rdropWhile_idempotent]

/-- The function `trim` is idempotent. -/
theorem jsTrim_idempotent (s : String) : jsTrim (jsTrim s) = jsTrim s := by
  have h := trim_chars_idempotent isJsWhitespace s.toList
  simp only [List.rdropWhile] at h
  simp only [jsTrim]
  exact congrArg String.mk h

/-- Trimming does not lengthen a string. -/
theorem jsLength_jsTrim_le (s : String) : jsLength (jsTrim s) ≤ jsLength s := by
  have hsub : (jsTrim s).toList.Sublist s.toList := by
    have h1 : ((s.toList.dropWhile isJsWhitespace).reverse.dropWhile isJsWhitespace).reverse.Sublist
        (s.toList.dropWhile isJsWhitespace) := by
      have := (List.dropWhile_sublist (l := (s.toList.dropWhile isJsWhitespace).reverse)
        isJsWhitespace).reverse
      simpa using this
    exact h1.trans (List.dropWhile_sublist _)
  unfold jsLength
  exact List.Sublist.sum_le_sum (hsub.map _) (fun _ _ => Nat.zero_le _)

/-- C22, what fails: an input of 1001 letters is passed to the gateway as it
is, 1001 characters long. -/
theorem long_body_counterexample :
    (handleSubmitCommentStart { video := some { videoId := "v1" }, isAuthenticated := true }
        { newComment := String.mk (List.replicate 1001 'a') }).2 =
      some { videoId := "v1", text := String.mk (List.replicate 1001 'a') } ∧
    jsLength (String.mk (List.replicate 1001 'a')) = 1001 := by
  set_option maxRecDepth 100000 in decide

/-- C22, amended. Every comment body that `handleSubmitComment` passes to
the gateway is the trimmed input of the comment box, and every body that
`handleEditComment` passes is the trimmed input of the edit box, whatever the
other box holds: the body is non-empty, is its own trim, and is no longer
than the input, hence at most 1000 characters long whenever the input is; an
input that is blank after trimming issues no request. The handlers
themselves put no bound on the length. -/
theorem body_is_trimmed_input (env : Env) (commentId : String) (s s₁ e e₁ : State)
    (req : CreateRequest) (sent : String × String)
    (hsubmit : handleSubmitCommentStart env s = (s₁, some req))
    (hedit : handleEditCommentStart commentId e = (e₁, some sent)) :
    req.text = jsTrim s.newComment ∧ req.text ≠ "" ∧ jsTrim req.text = req.text ∧
    jsLength req.text ≤ jsLength s.newComment ∧
    (jsLength s.newComment ≤ 1000 → jsLength req.text ≤ 1000) ∧
    sent.2 = jsTrim e.editText ∧ sent.2 ≠ "" ∧ jsTrim sent.2 = sent.2 ∧
    jsLength sent.2 ≤ jsLength e.editText ∧
    (jsLength e.editText ≤ 1000 → jsLength sent.2 ≤ 1000) ∧
    (∀ (env₀ : Env) (s₀ : State), jsTrim s₀.newComment = "" →
      (handleSubmitCommentStart env₀ s₀).2 = none) ∧
    (∀ (id₀ : String) (s₀ : State), jsTrim s₀.editText = "" →
      (handleEditCommentStart id₀ s₀).2 = none) := by
  have hreq : req.text = jsTrim s.newComment ∧ jsTrim s.newComment ≠ "" := by
    unfold handleSubmitCommentStart at hsubmit
    split at hsubmit
    · cases hsubmit
    · rename_i hguard
      have hne : jsTrim s.newComment ≠ "" := by
        intro hblank
        exact hguard (by simp [hblank])
      split at hsubmit
      · cases hsubmit
      · cases hsubmit
        exact ⟨rfl, hne⟩
  have hsent : sent.2 = jsTrim e.editText ∧ jsTrim e.editText ≠ "" := by
    unfold handleEditCommentStart at hedit
    split at hedit
    · cases hedit
    · rename_i hne
      cases hedit
      exact ⟨rfl, hne⟩
  obtain ⟨hr1, hr2⟩ := hreq
  obtain ⟨hs1, hs2⟩ := hsent
  refine ⟨hr1, hr1 ▸ hr2, ?_, ?_, ?_, hs1, hs1 ▸ hs2, ?_, ?_, ?_, ?_, ?_⟩
  · rw [hr1, jsTrim_idempotent]
  · rw [hr1]; exact jsLength_jsTrim_le _
  · intro h; rw [hr1]; exact le_trans (jsLength_jsTrim_le _) h
  · rw [hs1, jsTrim_idempotent]
  · rw [hs1]; exact jsLength_jsTrim_le _
  · intro h; rw [hs1]; exact le_trans (jsLength_jsTrim_le _) h
  · intro env₀ s₀ hblank
    simp [handleSubmitCommentStart, hblank]
  · intro id₀ s₀ hblank
    simp [handleEditCommentStart, hblank]

/-- Witness of C22, amended: the submit of 1001 letters with no edit in
progress, and a padded edit with an empty comment box. -/
theorem body_is_trimmed_input_witness :
    handleSubmitCommentStart { video := some { videoId := "v1" }, isAuthenticated := true }
        { newComment := String.mk (List.replicate 1001 'a') } =
      ({ newComment := String.mk (List.replicate 1001 'a'), submitting := true },
        some { videoId := "v1", text := String.mk (List.replicate 1001 'a') }) ∧
    handleEditCommentStart "c1" { editText := " Updated " } =
      ({ editText := " Updated " }, some ("c1", "Updated")) ∧
    ({ videoId := "v1", text := String.mk (List.replicate 1001 'a') } : CreateRequest).text =
      jsTrim ({ newComment := String.mk (List.replicate 1001 'a') } : State).newComment ∧
    ("c1", "Updated").2 = jsTrim ({ editText := " Updated " } : State).editText :=
  have h := body_is_trimmed_input
    { video := some { videoId := "v1" }, isAuthenticated := true } "c1"
    { newComment := String.mk (List.replicate 1001 'a') }
    { newComment := String.mk (List.replicate 1001 'a'), submitting := true }
    { editText := " Updated " } { editText := " Updated " }
    { videoId := "v1", text := String.mk (List.replicate 1001 'a') } ("c1", "Updated")
    (by set_option maxRecDepth 100000 in decide) (by decide)
  ⟨by set_option maxRecDepth 100000 in decide, by decide, h.1, h.2.2.2.2.2.1⟩

/-- C23, what fails: on an OK response whose body has `success` false,
`addComment` completes normally and returns `null`. -/
theorem addComment_null_counterexample :
    addComment (.response true 200 (.object false none "Comment rejected")) = .ok none ∧
    addComment (.response true 200 (.object true none "")) = .ok none := by
  exact ⟨rfl, rfl⟩

/-- C23, amended. For every server response to a create request,
`addComment` returns the `data` of the body when the response is OK and the
body is an object with `success` true, returns `null` when the response is OK
and the body is an object with `success` false, and throws in every other
case: a rejected fetch, a non-OK status, an unparsable or `null` body. -/
theorem addComment_outcomes :
    (∀ status data message,
      addComment (.response true status (.object true data message)) = .ok data) ∧
    (∀ status data message,
      addComment (.response true status (.object false data message)) = .ok none) ∧
    (∀ m, addComment (.rejected m) = .error m) ∧
    (∀ status body, ∃ e, addComment (.response false status body) = .error e) ∧
    (∀ status text, ∃ e, addComment (.response true status (.invalid text)) = .error e) ∧
    (∀ status, ∃ e, addComment (.response true status .null) = .error e) := by
  refine ⟨fun _ _ _ => rfl, fun _ _ _ => rfl, fun _ => rfl, ?_, fun _ _ => ⟨_, rfl⟩,
    fun _ => ⟨_, rfl⟩⟩
  intro status body
  cases body with
  | invalid text => exact ⟨_, rfl⟩
  | null => exact ⟨_, rfl⟩
  | object success data message => exact ⟨_, rfl⟩

/-- C27, the code at the failing input: for a signed-in viewer whose user
record has none of `id`, `userId`, `_id`, and a comment with neither `author`
nor `userId`, both sides of the comparison are `undefined` and
`canModifyComment` returns true. -/
theorem canModifyComment_undefined_ids :
    commentUserId { _id := "c1", text := "hi" } = IdValue.undefined ∧
    currentUserId {} = IdValue.undefined ∧
    canModifyComment { isAuthenticated := true, user := some {} } { _id := "c1", text := "hi" } =
      true := by
  decide

/-- The part of C27 the code keeps: `canModifyComment` returns true only for
a signed-in viewer with a user record whose id expression equals that of the
comment, and false for every viewer who is not signed in. -/
theorem canModifyComment_sound (env : Env) (comment : Comment)
    (h : canModifyComment env comment = true) :
    env.isAuthenticated = true ∧
    ∃ user, env.user = some user ∧ commentUserId comment = currentUserId user := by
  unfold canModifyComment at h
  cases hauth : env.isAuthenticated with
  | false => simp [hauth] at h
  | true =>
    cases huser : env.user with
    | none => simp [hauth, huser] at h
    | some user =>
      simp only [hauth, huser] at h
      exact ⟨rfl, user, rfl, by simpa using h⟩

/-- C30. For every comment list and every sort key, `sortComments` returns a
permutation of its input, of the same length; a key that is none of
`oldest` and `popular` behaves as `newest`; for an input that is not a list
the result is empty. -/
theorem sortComments_permutation (sortBy other : String) (cs : List Comment)
    (h₁ : other ≠ "oldest") (h₂ : other ≠ "popular") :
    (sortComments sortBy (some cs)).Perm cs ∧
    (sortComments sortBy (some cs)).length = cs.length ∧
    (∀ c, (sortComments sortBy (some cs)).count c = cs.count c) ∧
    sortComments other (some cs) = sortComments "newest" (some cs) ∧
    sortComments sortBy none = [] := by
  have hperm : (sortComments sortBy (some cs)).Perm cs := List.perm_insertionSort _ _
  refine ⟨hperm, hperm.length_eq, fun c => hperm.count_eq c, ?_, rfl⟩
  have hcmp : compareComments other = compareComments "newest" := by
    funext a b
    have h3 : ("newest" = "oldest") = False := by decide
    have h4 : ("newest" = "popular") = False := by decide
    simp [compareComments, h₁, h₂, h3, h4]
  simp only [sortComments, hcmp]

/-- Witness of C30: an unknown key on two comments stored oldest first. -/
theorem sortComments_permutation_witness :
    "recent" ≠ "oldest" ∧ "recent" ≠ "popular" ∧
    (sortComments "popular" (some [{ _id := "a", createdAt := .at 1 },
      { _id := "b", createdAt := .at 2 }])).Perm
        [{ _id := "a", createdAt := .at 1 }, { _id := "b", createdAt := .at 2 }] :=
  ⟨by decide, by decide,
    (sortComments_permutation "popular" "recent"
      [{ _id := "a", createdAt := .at 1 }, { _id := "b", createdAt := .at 2 }]
      (by decide) (by decide)).1⟩

end CommentSection

namespace ChannelForm

open CommentSection

/-! ## Properties of the channel form -/

/-- Adding a tag keeps what holds of the tag list: at most 10 tags, pairwise
distinct, each non-empty, trimmed and lowercase. -/
theorem tags_ok_add (toLowerCase : String → String)
    (hidem : ∀ t, toLowerCase (toLowerCase t) = toLowerCase t)
    (htrim : ∀ t, jsTrim t = t → jsTrim (toLowerCase t) = toLowerCase t)
    (s : FormState)
    (h : s.formData.tags.length ≤ 10 ∧ s.formData.tags.Nodup ∧
      ∀ t ∈ s.formData.tags, t ≠ "" ∧ jsTrim t = t ∧ toLowerCase t = t) :
    (handleAddTag toLowerCase s).formData.tags.length ≤ 10 ∧
    (handleAddTag toLowerCase s).formData.tags.Nodup ∧
    ∀ t ∈ (handleAddTag toLowerCase s).formData.tags,
      t ≠ "" ∧ jsTrim t = t ∧ toLowerCase t = t := by
  unfold handleAddTag
  simp only
  split
  · rename_i hcond
    simp only [Bool.and_eq_true, bne_iff_ne, ne_eq, Bool.not_eq_true', decide_eq_true_eq] at hcond
    obtain ⟨⟨hne, hnew⟩, hlen⟩ := hcond
    have hnotin : toLowerCase (jsTrim s.tagInput) ∉ s.formData.tags := by
      intro hin
      simp [hin] at hnew
    refine ⟨?_, ?_, ?_⟩
    · simp only [List.length_append, List.length_singleton]
      omega
    · rw [List.nodup_append]
      refine ⟨h.2.1, List.nodup_singleton _, ?_⟩
      intro a ha hb
      rw [List.mem_singleton] at hb
      exact hnotin (hb ▸ ha)
    · intro t ht
      rcases List.mem_append.1 ht with ht | ht
      · exact h.2.2 t ht
      · rw [List.mem_singleton] at ht
        subst ht
        exact ⟨hne, htrim _ (jsTrim_idempotent _), hidem _⟩
  · exact h

/-- Removing a tag keeps what holds of the tag list. -/
theorem tags_ok_remove (toLowerCase : String → String) (tagToRemove : String) (s : FormState)
    (h : s.formData.tags.length ≤ 10 ∧ s.formData.tags.Nodup ∧
      ∀ t ∈ s.formData.tags, t ≠ "" ∧ jsTrim t = t ∧ toLowerCase t = t) :
    (handleRemoveTag tagToRemove s).formData.tags.length ≤ 10 ∧
    (handleRemoveTag tagToRemove s).formData.tags.Nodup ∧
    ∀ t ∈ (handleRemoveTag tagToRemove s).formData.tags,
      t ≠ "" ∧ jsTrim t = t ∧ toLowerCase t = t := by
  simp only [handleRemoveTag]
  refine ⟨le_trans (List.length_filter_le _ _) h.1, h.2.1.filter _, ?_⟩
  intro t ht
  exact h.2.2 t (List.mem_filter.1 ht).1

/-- C24. For every sequence of tag steps (typing into the tag input,
`handleAddTag`, `handleRemoveTag`) from a state with an empty tag list, the
tag list holds at most 10 tags, pairwise distinct, each non-empty, trimmed
and lowercase; `handleRemoveTag` leaves a sublist of the tags (order kept)
that holds every tag but the named one. The built-in `toLowerCase` is taken
to be idempotent and to turn no character into white space. -/
theorem tags_invariant (toLowerCase : String → String)
    (hidem : ∀ t, toLowerCase (toLowerCase t) = toLowerCase t)
    (htrim : ∀ t, jsTrim t = t → jsTrim (toLowerCase t) = toLowerCase t)
    (steps : List TagStep) (s₀ : FormState) (hempty : s₀.formData.tags = []) :
    (runTagSteps toLowerCase steps s₀).formData.tags.length ≤ 10 ∧
    (runTagSteps toLowerCase steps s₀).formData.tags.Nodup ∧
    (∀ t ∈ (runTagSteps toLowerCase steps s₀).formData.tags,
      t ≠ "" ∧ jsTrim t = t ∧ toLowerCase t = t) ∧
    ∀ (tagToRemove : String) (s : FormState),
      (handleRemoveTag tagToRemove s).formData.tags.Sublist s.formData.tags ∧
      tagToRemove ∉ (handleRemoveTag tagToRemove s).formData.tags ∧
      ∀ t ∈ s.formData.tags, t ≠ tagToRemove →
        t ∈ (handleRemoveTag tagToRemove s).formData.tags := by
  have hrun : ∀ (steps : List TagStep) (s : FormState),
      (s.formData.tags.length ≤ 10 ∧ s.formData.tags.Nodup ∧
        ∀ t ∈ s.formData.tags, t ≠ "" ∧ jsTrim t = t ∧ toLowerCase t = t) →
      ((runTagSteps toLowerCase steps s).formData.tags.length ≤ 10 ∧
        (runTagSteps toLowerCase steps s).formData.tags.Nodup ∧
        ∀ t ∈ (runTagSteps toLowerCase steps s).formData.tags,
          t ≠ "" ∧ jsTrim t = t ∧ toLowerCase t = t) := by
    intro steps
    induction steps with
    | nil => intro s h; exact h
    | cons step rest ih =>
      intro s h
      simp only [runTagSteps, List.foldl_cons]
      apply ih
      cases step with
      | type value => exact h
      | add => exact tags_ok_add toLowerCase hidem htrim s h
      | remove tagToRemove => exact tags_ok_remove toLowerCase tagToRemove s h
  have h0 : s₀.formData.tags.length ≤ 10 ∧ s₀.formData.tags.Nodup ∧
      ∀ t ∈ s₀.formData.tags, t ≠ "" ∧ jsTrim t = t ∧ toLowerCase t = t := by
    rw [hempty]
    simp
  obtain ⟨h1, h2, h3⟩ := hrun steps s₀ h0
  refine ⟨h1, h2, h3, ?_⟩
  intro tagToRemove s
  simp only [handleRemoveTag]
  refine ⟨List.filter_sublist _, ?_, ?_⟩
  · intro hin
    simpa using (List.mem_filter.1 hin).2
  · intro t ht hne
    exact List.mem_filter.2 ⟨ht, by simpa using hne⟩

/-- Lowering a basic Latin letter twice is lowering it once. -/
theorem toLower_toLower (c : Char) : c.toLower.toLower = c.toLower := by
  by_cases h : c.toNat ≥ 65 ∧ c.toNat ≤ 90
  · have hc : c.toLower = Char.ofNat (c.toNat + 32) := by
      simp only [Char.toLower]
      rw [if_pos h]
    rw [hc]
    obtain ⟨h1, h2⟩ := h
    generalize c.toNat = n at h1 h2
    interval_cases n <;> decide
  · have hc : c.toLower = c := by
      simp only [Char.toLower]
      rw [if_neg h]
    rw [hc, hc]

/-- Lowering a basic Latin letter does not make or unmake white space. -/
theorem isJsWhitespace_toLower (c : Char) : isJsWhitespace c.toLower = isJsWhitespace c := by
  by_cases h : c.toNat ≥ 65 ∧ c.toNat ≤ 90
  · have hc : c.toLower = Char.ofNat (c.toNat + 32) := by
      simp only [Char.toLower]
      rw [if_pos h]
    rw [hc]
    obtain ⟨h1, h2⟩ := h
    have hleft : isJsWhitespace c = false := by
      simp only [isJsWhitespace]
      generalize c.toNat = n at h1 h2
      interval_cases n <;> decide
    rw [hleft]
    generalize c.toNat = n at h1 h2
    interval_cases n <;> decide
  · have hc : c.toLower = c := by
      simp only [Char.toLower]
      rw [if_neg h]
    rw [hc]

/-- The basic Latin `toLowerCase` is idempotent. -/
theorem toLowerCaseLatin_idempotent (t : String) :
    toLowerCaseLatin (toLowerCaseLatin t) = toLowerCaseLatin t := by
  simp only [toLowerCaseLatin, String.toList, List.map_map]
  congr 1
  apply List.map_congr_left
  intro c _
  exact toLower_toLower c

/-- The basic Latin `toLowerCase` of a trimmed string is trimmed. -/
theorem toLowerCaseLatin_trimmed (t : String) (h : jsTrim t = t) :
    jsTrim (toLowerCaseLatin t) = toLowerCaseLatin t := by
  have hp : (isJsWhitespace ∘ Char.toLower) = isJsWhitespace := by
    funext c
    exact isJsWhitespace_toLower c
  have hcomm : jsTrim (toLowerCaseLatin t) = toLowerCaseLatin (jsTrim t) := by
    simp only [jsTrim, toLowerCaseLatin, String.toList, List.dropWhile_map, ← List.map_reverse,
      hp]
  rw [hcomm, h]

/-- Witness of C24: two tags are added, the second twice, and the first is
removed. -/
theorem tags_invariant_witness :
    ({} : FormState).formData.tags = [] ∧
    (runTagSteps toLowerCaseLatin
      [.type " Cats ", .add, .type "DOGS", .add, .type "dogs", .add, .remove "cats"]
      {}).formData.tags.length ≤ 10 :=
  ⟨rfl,
    (tags_invariant toLowerCaseLatin toLowerCaseLatin_idempotent toLowerCaseLatin_trimmed
      [.type " Cats ", .add, .type "DOGS", .add, .type "dogs", .add, .remove "cats"]
      {} rfl).1⟩

end ChannelForm

namespace ChannelForm

open CommentSection

/-- C25, the code at the failing input: a form whose name is 50 characters
long and whose description is 1000 characters long is accepted, although
neither is less than 50 or 1000 characters long as the error messages of
`validateForm` have it. -/
theorem validateForm_accepts_limit :
    jsLength (String.mk (List.replicate 50 'a')) = 50 ∧
    jsLength (String.mk (List.replicate 1000 'b')) = 1000 ∧
    (validateForm (fun _ => true)
      { formData := { name := String.mk (List.replicate 50 'a'),
                      description := String.mk (List.replicate 1000 'b') } }).2 = true := by
  set_option maxRecDepth 100000 in decide

/-- The bounds `validateForm` does enforce: an accepted form has a name of 3
to 50 characters and a description of 10 to 1000 characters, both ends
included. -/
theorem validateForm_bounds (isValidUrl : String → Bool) (s : FormState)
    (h : (validateForm isValidUrl s).2 = true) :
    3 ≤ jsLength s.formData.name ∧ jsLength s.formData.name ≤ 50 ∧
    10 ≤ jsLength s.formData.description ∧ jsLength s.formData.description ≤ 1000 := by
  simp only [validateForm, decide_eq_true_eq] at h
  have hname := congrArg ValidationErrors.name h
  have hdesc := congrArg ValidationErrors.description h
  simp only [validationErrorsOf] at hname hdesc
  have hn : 3 ≤ jsLength s.formData.name ∧ jsLength s.formData.name ≤ 50 := by
    split at hname
    · cases hname
    · split at hname
      · cases hname
      · split at hname
        · cases hname
        · omega
  have hd : 10 ≤ jsLength s.formData.description ∧ jsLength s.formData.description ≤ 1000 := by
    split at hdesc
    · cases hdesc
    · split at hdesc
      · cases hdesc
      · split at hdesc
        · cases hdesc
        · omega
  exact ⟨hn.1, hn.2, hd.1, hd.2⟩

end ChannelForm

namespace VideoPage

open CommentSection

/-! ## Properties of the related videos -/

/-- The order read off the comparator of `relatedVideos`: a video of the
current category stays before one of another category, and within a group
the one with more views stays first. -/
theorem sortLE_compareRelated (video a b : Video) :
    sortLE (compareRelated video) a b ↔
      (a.category = video.category ∧ b.category ≠ video.category) ∨
      ((a.category = video.category ↔ b.category = video.category) ∧ b.views ≤ a.views) := by
  by_cases ha : a.category = video.category <;> by_cases hb : b.category = video.category <;>
    simp [sortLE, sortCompare, compareRelated, ha, hb]

/-- C26. For every video list, current video and count `n`, the related
videos are the first `n` of the candidates (the videos of the list whose id
is not that of the current video), or all of them when there are fewer: none
has the id of the current video; together with the candidates left out they
are a rearrangement of the candidates; no video of another category comes
before a video of the current category and, within each of the two groups,
no video comes before one with more views; and every candidate left out
comes, in that same order, after every video kept. -/
theorem relatedVideos_ordered (mockVideos : List Video) (video : Video) (n : Nat) :
    (∀ v ∈ relatedVideos mockVideos video n, v.videoId ≠ video.videoId) ∧
    (relatedVideos mockVideos video n).length ≤ n ∧
    (relatedVideos mockVideos video n).length =
      min n (mockVideos.filter fun v => v.videoId != video.videoId).length ∧
    (relatedVideos mockVideos video n).Pairwise (fun a b =>
      (b.category = video.category → a.category = video.category) ∧
      ((a.category = video.category ↔ b.category = video.category) → b.views ≤ a.views)) ∧
    ∃ rest : List Video,
      (relatedVideos mockVideos video n ++ rest).Perm
        (mockVideos.filter fun v => v.videoId != video.videoId) ∧
      ∀ a ∈ relatedVideos mockVideos video n, ∀ b ∈ rest,
        (b.category = video.category → a.category = video.category) ∧
        ((a.category = video.category ↔ b.category = video.category) → b.views ≤ a.views) := by
  have hsorted := arraySort_sorted_on (compareRelated video) (fun _ => True)
    (by
      intro a b _ _
      rw [sortLE_compareRelated, sortLE_compareRelated]
      by_cases ha : a.category = video.category <;>
        by_cases hb : b.category = video.category <;>
        simp [ha, hb] <;> exact le_total _ _)
    (by
      intro a b c _ _ _
      rw [sortLE_compareRelated, sortLE_compareRelated, sortLE_compareRelated]
      by_cases ha : a.category = video.category <;>
        by_cases hb : b.category = video.category <;>
        by_cases hc : c.category = video.category <;>
        simp [ha, hb, hc] <;> exact fun hab hbc => le_trans hbc hab)
    (mockVideos.filter fun v => v.videoId != video.videoId) (fun _ _ => trivial)
  have horder : ∀ a b : Video, sortLE (compareRelated video) a b →
      (b.category = video.category → a.category = video.category) ∧
      ((a.category = video.category ↔ b.category = video.category) → b.views ≤ a.views) := by
    intro a b hab
    rw [sortLE_compareRelated] at hab
    by_cases ha : a.category = video.category <;>
      by_cases hb : b.category = video.category <;>
      simp_all
  have hperm : (arraySort (compareRelated video)
      (mockVideos.filter fun v => v.videoId != video.videoId)).Perm
      (mockVideos.filter fun v => v.videoId != video.videoId) := List.perm_insertionSort _ _
  have hsplit : relatedVideos mockVideos video n ++
      (arraySort (compareRelated video)
        (mockVideos.filter fun v => v.videoId != video.videoId)).drop n =
      arraySort (compareRelated video)
        (mockVideos.filter fun v => v.videoId != video.videoId) := List.take_append_drop _ _
  refine ⟨?_, ?_, ?_, ?_, ?_⟩
  · intro v hv
    have hmem := (mem_arraySort _ _ _).1 (List.mem_of_mem_take hv)
    simpa using (List.mem_filter.1 hmem).2
  · exact List.length_take_le _ _
  · simp only [relatedVideos, List.length_take]
    rw [hperm.length_eq]
  · exact List.Pairwise.imp (fun {a b} hab => horder a b hab)
      (List.Pairwise.sublist (List.take_sublist _ _) hsorted)
  · refine ⟨(arraySort (compareRelated video)
      (mockVideos.filter fun v => v.videoId != video.videoId)).drop n, ?_, ?_⟩
    · rw [hsplit]
      exact hperm
    · intro a ha b hb
      have hpw : (relatedVideos mockVideos video n ++
          (arraySort (compareRelated video)
            (mockVideos.filter fun v => v.videoId != video.videoId)).drop n).Pairwise
          (sortLE (compareRelated video)) := by
        rw [hsplit]
        exact hsorted
      exact horder a b ((List.pairwise_append.1 hpw).2.2 a ha b hb)

end VideoPage
